/-
Verification of the heatmap field-computation engine (src/heatmap.ts).

The development shallowly embeds the engine's data model and operations:
JavaScript numbers are modelled as real numbers, JS `Map`s as association
lists (store) or `String → Option ℝ` functions (battery cache), and the
per-cell loops as `List.foldl` / `List.map` pipelines that preserve the
source's evaluation order.  Rendering-only collaborators (ShaderManager,
Babylon meshes, the playground UI) are out of scope, as are the
`attachedMesh` back-references, which never influence the numerics.
-/
import Mathlib

noncomputable section

/-! ## Vectors (BABYLON.Vector3 restricted to the operations the engine uses) -/

/-- 3D point/vector with real coordinates. -/
structure Vec3 where
  x : ℝ
  y : ℝ
  z : ℝ

/-- `Vector3.subtract`. -/
def vsub (a b : Vec3) : Vec3 := ⟨a.x - b.x, a.y - b.y, a.z - b.z⟩

/-- `Vector3.add`. -/
def vadd (a b : Vec3) : Vec3 := ⟨a.x + b.x, a.y + b.y, a.z + b.z⟩

/-- `Vector3.scale`. -/
def vscale (a : Vec3) (t : ℝ) : Vec3 := ⟨a.x * t, a.y * t, a.z * t⟩

/-- `Vector3.Dot`. -/
def vdot (a b : Vec3) : ℝ := a.x * b.x + a.y * b.y + a.z * b.z

/-- `Vector3.length`: Euclidean norm. -/
def vlength (a : Vec3) : ℝ := Real.sqrt (a.x ^ 2 + a.y ^ 2 + a.z ^ 2)

/-- `BABYLON.Vector3.Distance`: Euclidean distance. -/
def dist3 (a b : Vec3) : ℝ :=
  Real.sqrt ((a.x - b.x) ^ 2 + (a.y - b.y) ^ 2 + (a.z - b.z) ^ 2)

theorem vlength_nonneg (a : Vec3) : 0 ≤ vlength a := Real.sqrt_nonneg _

theorem dist3_nonneg (a b : Vec3) : 0 ≤ dist3 a b := Real.sqrt_nonneg _

/-! ## Data model (interfaces Sensor, Link, AttenuationPoint, config types) -/

/-- `interface Sensor` (the optional `attachedMesh` back-reference is a
rendering concern and is omitted). -/
structure Sensor where
  id : String
  position : Vec3
  intensity : ℝ
  radius : ℝ
  enabled : Bool

/-- `interface Link`. -/
structure Link where
  id : String
  sensorA : String
  sensorB : String
  weight : ℝ

/-- `interface AttenuationPoint`. -/
structure AttenuationPoint where
  id : String
  position : Vec3
  factor : ℝ
  radius : ℝ

/-- `type CombineMode = 'add' | 'max' | 'overlay'`. -/
inductive CombineMode where
  | add
  | max
  | overlay
deriving DecidableEq, Repr

/-- The numeric fields of `HeatmapConfig` read by the rasterizer.  The
`strategy` field is passed explicitly to the functions that use it;
`colorStops` and `thresholds` are only consumed by rendering. -/
structure Config where
  combineMode : CombineMode
  zeroForceRed : Bool
  textureSize : ℕ
  uvVFlipped : Bool
  defaultRadius : ℝ

/-- `interface HeatmapContext` (entity collections handed to strategies;
the embedded `config`/`textureSize` fields are passed separately). -/
structure HeatmapContext where
  sensors : List Sensor
  links : List Link
  attenuators : List AttenuationPoint

/-! ## Combination algebra (`BaseHeatmapStrategy.combineInfluences`) -/

/-- `Math.max(...values)` for a non-empty spread; the empty case is
unreachable behind the `values.length === 0` guard. -/
def listMax : List ℝ → ℝ
  | [] => 0
  | v :: vs => vs.foldl max v

/-- `BaseHeatmapStrategy.combineInfluences`.  `reduce` with an initial
accumulator is a left fold. -/
def combineInfluences (values : List ℝ) (combineMode : CombineMode) : ℝ :=
  if values.length = 0 then 0
  else
    match combineMode with
    | .add => min 1 (values.foldl (fun sum v => sum + v) 0)
    | .max => listMax values
    | .overlay => 1 - values.foldl (fun acc v => acc * (1 - v)) 1

/-! ### Fold helper lemmas -/

theorem foldl_invariant {α β : Type} (P : β → Prop) (f : β → α → β)
    (l : List α) (init : β) (h0 : P init)
    (hstep : ∀ b a, P b → a ∈ l → P (f b a)) : P (l.foldl f init) := by
  induction l generalizing init with
  | nil => exact h0
  | cons a l ih =>
      exact ih (f init a) (hstep init a h0 (List.mem_cons_self a l))
        (fun b a' hb ha' => hstep b a' hb (List.mem_cons_of_mem a ha'))

theorem foldl_max_ge_init (vs : List ℝ) (v : ℝ) : v ≤ vs.foldl max v := by
  induction vs generalizing v with
  | nil => exact le_refl v
  | cons w vs ih => exact le_trans (le_max_left v w) (ih (max v w))

theorem foldl_max_ge_mem (vs : List ℝ) (v : ℝ) :
    ∀ x ∈ vs, x ≤ vs.foldl max v := by
  induction vs generalizing v with
  | nil => intro x hx; cases hx
  | cons w vs ih =>
      intro x hx
      rcases List.mem_cons.mp hx with h | h
      · subst h
        exact le_trans (le_max_right v x) (foldl_max_ge_init vs (max v x))
      · exact ih (max v w) x h

theorem foldl_max_mem_or (vs : List ℝ) (v : ℝ) :
    vs.foldl max v = v ∨ vs.foldl max v ∈ vs := by
  induction vs generalizing v with
  | nil => exact Or.inl rfl
  | cons w vs ih =>
      rcases ih (max v w) with h | h
      · rcases max_choice v w with hm | hm
        · exact Or.inl (by rw [List.foldl_cons, h, hm])
        · exact Or.inr (by rw [List.foldl_cons, h, hm]; exact List.mem_cons_self w vs)
      · exact Or.inr (List.mem_cons_of_mem w h)

theorem listMax_mem (l : List ℝ) (h : l ≠ []) : listMax l ∈ l := by
  cases l with
  | nil => exact absurd rfl h
  | cons v vs =>
      rcases foldl_max_mem_or vs v with h' | h'
      · rw [listMax, h']; exact List.mem_cons_self v vs
      · exact List.mem_cons_of_mem v h'

theorem le_listMax (l : List ℝ) : ∀ x ∈ l, x ≤ listMax l := by
  intro x hx
  cases l with
  | nil => cases hx
  | cons v vs =>
      rcases List.mem_cons.mp hx with h | h
      · subst h; exact foldl_max_ge_init vs x
      · exact foldl_max_ge_mem vs v x h

theorem foldl_add_nonneg (l : List ℝ) (init : ℝ) (h0 : 0 ≤ init)
    (hb : ∀ v ∈ l, 0 ≤ v) : 0 ≤ l.foldl (fun sum v => sum + v) init := by
  refine foldl_invariant (fun b => 0 ≤ b) _ l init h0 ?_
  intro b a hbp ha
  exact add_nonneg hbp (hb a ha)

theorem overlayFold_bounds (l : List ℝ) (init : ℝ)
    (h0 : 0 ≤ init) (h1 : init ≤ 1) (hb : ∀ v ∈ l, 0 ≤ v ∧ v ≤ 1) :
    0 ≤ l.foldl (fun acc v => acc * (1 - v)) init ∧
      l.foldl (fun acc v => acc * (1 - v)) init ≤ init := by
  induction l generalizing init with
  | nil => exact ⟨h0, le_refl init⟩
  | cons v vs ih =>
      have hv := hb v (List.mem_cons_self v vs)
      have hb' : ∀ w ∈ vs, 0 ≤ w ∧ w ≤ 1 :=
        fun w hw => hb w (List.mem_cons_of_mem v hw)
      have hfac0 : 0 ≤ 1 - v := by linarith [hv.2]
      have hfac1 : 1 - v ≤ 1 := by linarith [hv.1]
      have hinit0 : 0 ≤ init * (1 - v) := mul_nonneg h0 hfac0
      have hinit1 : init * (1 - v) ≤ 1 := by
        calc init * (1 - v) ≤ 1 * 1 := by
              exact mul_le_mul h1 hfac1 hfac0 zero_le_one
          _ = 1 := one_mul 1
      have := ih (init * (1 - v)) hinit0 hinit1 hb'
      refine ⟨this.1, le_trans this.2 ?_⟩
      calc init * (1 - v) ≤ init * 1 := by
            exact mul_le_mul_of_nonneg_left hfac1 h0
        _ = init := mul_one init

theorem overlayFold_le_of_mem (l : List ℝ) (init : ℝ)
    (h0 : 0 ≤ init) (h1 : init ≤ 1) (hb : ∀ v ∈ l, 0 ≤ v ∧ v ≤ 1) :
    ∀ x ∈ l, l.foldl (fun acc v => acc * (1 - v)) init ≤ 1 - x := by
  induction l generalizing init with
  | nil => intro x hx; cases hx
  | cons v vs ih =>
      intro x hx
      have hv := hb v (List.mem_cons_self v vs)
      have hb' : ∀ w ∈ vs, 0 ≤ w ∧ w ≤ 1 :=
        fun w hw => hb w (List.mem_cons_of_mem v hw)
      have hfac0 : 0 ≤ 1 - v := by linarith [hv.2]
      have hfac1 : 1 - v ≤ 1 := by linarith [hv.1]
      have hinit0 : 0 ≤ init * (1 - v) := mul_nonneg h0 hfac0
      have hinit1 : init * (1 - v) ≤ 1 := by
        calc init * (1 - v) ≤ 1 * 1 := mul_le_mul h1 hfac1 hfac0 zero_le_one
          _ = 1 := one_mul 1
      rcases List.mem_cons.mp hx with h | h
      · subst h
        have hle := (overlayFold_bounds vs (init * (1 - x)) hinit0 hinit1 hb').2
        refine le_trans hle ?_
        calc init * (1 - x) ≤ 1 * (1 - x) := mul_le_mul_of_nonneg_right h1 hfac0
          _ = 1 - x := one_mul _
      · exact ih (init * (1 - v)) hinit0 hinit1 hb' x h

/-- Shared bound for the combination algebra: a non-empty list of values
in `[0,1]` combines to a value in `[0,1]` under every mode. -/
theorem combine_bounds_aux (l : List ℝ) (hne : l ≠ [])
    (hb : ∀ v ∈ l, 0 ≤ v ∧ v ≤ 1) (mode : CombineMode) :
    0 ≤ combineInfluences l mode ∧ combineInfluences l mode ≤ 1 := by
  have hlen : ¬ l.length = 0 := by
    intro h; exact hne (List.length_eq_zero.mp h)
  cases mode with
  | add =>
      have hsum : 0 ≤ l.foldl (fun sum v => sum + v) 0 :=
        foldl_add_nonneg l 0 (le_refl 0) (fun v hv => (hb v hv).1)
      constructor
      · simp only [combineInfluences, if_neg hlen]
        exact le_min zero_le_one hsum
      · simp only [combineInfluences, if_neg hlen]
        exact min_le_left 1 _
  | max =>
      have hmem := listMax_mem l hne
      constructor
      · simp only [combineInfluences, if_neg hlen]
        exact (hb _ hmem).1
      · simp only [combineInfluences, if_neg hlen]
        exact (hb _ hmem).2
  | overlay =>
      have hp := overlayFold_bounds l 1 zero_le_one (le_refl 1) hb
      constructor
      · simp only [combineInfluences, if_neg hlen]
        linarith [hp.2]
      · simp only [combineInfluences, if_neg hlen]
        linarith [hp.1]

/-- C1: for a non-empty list of values in `[0,1]`, the `add`, `max` and
`overlay` modes of `combineInfluences` all return a value in `[0,1]`;
the `overlay` result dominates the `max` result, and the `max` result is
the maximum element of the list. -/
theorem C1_combineInfluences_bounds (l : List ℝ) (hne : l ≠ [])
    (hb : ∀ v ∈ l, 0 ≤ v ∧ v ≤ 1) :
    (0 ≤ combineInfluences l .add ∧ combineInfluences l .add ≤ 1) ∧
    (0 ≤ combineInfluences l .max ∧ combineInfluences l .max ≤ 1) ∧
    (0 ≤ combineInfluences l .overlay ∧ combineInfluences l .overlay ≤ 1) ∧
    combineInfluences l .max ≤ combineInfluences l .overlay ∧
    combineInfluences l .max ∈ l ∧
    (∀ v ∈ l, v ≤ combineInfluences l .max) := by
  have hlen : ¬ l.length = 0 := by
    intro h; exact hne (List.length_eq_zero.mp h)
  refine ⟨combine_bounds_aux l hne hb .add,
          combine_bounds_aux l hne hb .max,
          combine_bounds_aux l hne hb .overlay, ?_, ?_, ?_⟩
  · simp only [combineInfluences, if_neg hlen]
    have hmem := listMax_mem l hne
    have := overlayFold_le_of_mem l 1 zero_le_one (le_refl 1) hb
      (listMax l) hmem
    linarith
  · simp only [combineInfluences, if_neg hlen]
    exact listMax_mem l hne
  · intro v hv
    simp only [combineInfluences, if_neg hlen]
    exact le_listMax l v hv

/-- Witness for C1 on the concrete list `[1/2, 1/4]`. -/
theorem C1_combineInfluences_bounds_witness :
    (0 ≤ combineInfluences [1/2, 1/4] .add ∧
      combineInfluences [1/2, 1/4] .add ≤ 1) ∧
    (0 ≤ combineInfluences [1/2, 1/4] .max ∧
      combineInfluences [1/2, 1/4] .max ≤ 1) ∧
    (0 ≤ combineInfluences [1/2, 1/4] .overlay ∧
      combineInfluences [1/2, 1/4] .overlay ≤ 1) ∧
    combineInfluences [1/2, 1/4] .max ≤ combineInfluences [1/2, 1/4] .overlay ∧
    combineInfluences [1/2, 1/4] .max ∈ [(1:ℝ)/2, 1/4] ∧
    (∀ v ∈ [(1:ℝ)/2, 1/4], v ≤ combineInfluences [1/2, 1/4] .max) := by
  refine C1_combineInfluences_bounds [1/2, 1/4] (by simp) ?_
  intro v hv
  rcases List.mem_cons.mp hv with h | h
  · subst h; norm_num
  · simp only [List.mem_singleton] at h; subst h; norm_num

/-! ## Signal strategy (`class SignalStrategy`) -/

/-- `SignalStrategy.pointToSegmentDistance`: clamped projection onto the
segment, with a point-to-point fallback for coincident endpoints. -/
def pointToSegmentDistance (point segmentStart segmentEnd : Vec3) : ℝ :=
  let segmentVector := vsub segmentEnd segmentStart
  let pointVector := vsub point segmentStart
  let segmentLength := vlength segmentVector
  if segmentLength = 0 then vlength pointVector
  else
    let t := max 0 (min 1 (vdot pointVector segmentVector /
      (segmentLength * segmentLength)))
    let projection := vadd segmentStart (vscale segmentVector t)
    dist3 point projection

theorem pointToSegmentDistance_nonneg (p a b : Vec3) :
    0 ≤ pointToSegmentDistance p a b := by
  unfold pointToSegmentDistance
  by_cases h : vlength (vsub b a) = 0
  · simp only [if_pos h]; exact vlength_nonneg _
  · simp only [if_neg h]; exact dist3_nonneg _ _

/-- The body of the `for (const link of context.links)` loop in
`SignalStrategy.computeInfluence`, accumulating `linkInfluence`. -/
def signalLinkStep (sensor : Sensor) (point : Vec3) (ctx : HeatmapContext)
    (li : ℝ) (link : Link) : ℝ :=
  if link.sensorA = sensor.id ∨ link.sensorB = sensor.id then
    let otherSensorId := if link.sensorA = sensor.id then link.sensorB
      else link.sensorA
    match ctx.sensors.find? (fun s => s.id == otherSensorId) with
    | some otherSensor =>
        if otherSensor.enabled = true ∧ otherSensor.intensity > 0 then
          let distFromSegment :=
            pointToSegmentDistance point sensor.position otherSensor.position
          let maxLinkRadius := max sensor.radius otherSensor.radius * 0.5
          if distFromSegment < maxLinkRadius then
            let linkFactor := max 0 (1 - distFromSegment / maxLinkRadius)
            let avgIntensity := (sensor.intensity + otherSensor.intensity) * 0.5
            max li (linkFactor * avgIntensity * link.weight)
          else li
        else li
    | none => li
  else li

/-- The body of the `for (const att of context.attenuators)` loop in
`SignalStrategy.computeInfluence`. -/
def signalAttStep (point : Vec3) (influence : ℝ) (att : AttenuationPoint) : ℝ :=
  let distToAtt := dist3 att.position point
  if distToAtt < att.radius then
    influence * (1 - (1 - att.factor) * (1 - distToAtt / att.radius))
  else influence

/-- `SignalStrategy.computeInfluence`: linear radial falloff, raised by
link propagation, dampened multiplicatively by attenuators. -/
def signalComputeInfluence (sensor : Sensor) (point : Vec3)
    (ctx : HeatmapContext) : ℝ :=
  if sensor.enabled = false ∨ sensor.intensity = 0 then 0
  else
    let distance := dist3 sensor.position point
    let influence := max 0 (1 - distance / sensor.radius) * sensor.intensity
    let influence :=
      if ctx.links.length > 0 then
        max influence (ctx.links.foldl (signalLinkStep sensor point ctx) 0)
      else influence
    ctx.attenuators.foldl (signalAttStep point) influence

/-- In the absence of links and attenuators, `SignalStrategy.computeInfluence`
is exactly the clamped linear falloff formula. -/
theorem signal_no_links_atts (sensor : Sensor) (point : Vec3)
    (ctx : HeatmapContext) (hl : ctx.links = []) (ha : ctx.attenuators = [])
    (he : sensor.enabled = true) :
    signalComputeInfluence sensor point ctx =
      max 0 (1 - dist3 sensor.position point / sensor.radius) *
        sensor.intensity := by
  unfold signalComputeInfluence
  by_cases hz : sensor.intensity = 0
  · simp [he, hz]
  · simp [he, hz, hl, ha]

/-- C3: for a single enabled Signal-mode sensor in a context with no links
and no attenuators, `computeInfluence` equals
`max 0 (1 - distance/radius) * intensity`, is non-increasing in the
distance from the sensor, and vanishes at and beyond the radius. -/
theorem C3_signal_falloff (sensor : Sensor) (ctx : HeatmapContext)
    (hs : ctx.sensors = [sensor]) (hl : ctx.links = [])
    (ha : ctx.attenuators = []) (he : sensor.enabled = true)
    (hr : 0 < sensor.radius) (hi : 0 ≤ sensor.intensity) :
    (∀ point, signalComputeInfluence sensor point ctx =
      max 0 (1 - dist3 sensor.position point / sensor.radius) *
        sensor.intensity) ∧
    (∀ p q, dist3 sensor.position p ≤ dist3 sensor.position q →
      signalComputeInfluence sensor q ctx ≤
        signalComputeInfluence sensor p ctx) ∧
    (∀ point, sensor.radius ≤ dist3 sensor.position point →
      signalComputeInfluence sensor point ctx = 0) := by
  refine ⟨fun point => signal_no_links_atts sensor point ctx hl ha he,
    ?_, ?_⟩
  · intro p q hpq
    rw [signal_no_links_atts sensor p ctx hl ha he,
        signal_no_links_atts sensor q ctx hl ha he]
    refine mul_le_mul_of_nonneg_right ?_ hi
    refine max_le_max (le_refl 0) ?_
    have : dist3 sensor.position p / sensor.radius ≤
        dist3 sensor.position q / sensor.radius :=
      (div_le_div_right hr).mpr hpq
    linarith
  · intro point hd
    rw [signal_no_links_atts sensor point ctx hl ha he]
    have h1 : (1:ℝ) ≤ dist3 sensor.position point / sensor.radius :=
      (one_le_div hr).mpr hd
    have : max 0 (1 - dist3 sensor.position point / sensor.radius) = 0 :=
      max_eq_left (by linarith)
    rw [this, zero_mul]

/-- Witness for C3 at a concrete sensor and context. -/
theorem C3_signal_falloff_witness :
    (∀ point,
      signalComputeInfluence
        ⟨"s", ⟨0, 0, 0⟩, 1, 2, true⟩ point ⟨[⟨"s", ⟨0, 0, 0⟩, 1, 2, true⟩], [], []⟩ =
      max 0 (1 - dist3 ⟨0, 0, 0⟩ point / 2) * 1) ∧
    (∀ p q, dist3 ⟨0, 0, 0⟩ p ≤ dist3 ⟨0, 0, 0⟩ q →
      signalComputeInfluence ⟨"s", ⟨0, 0, 0⟩, 1, 2, true⟩ q
          ⟨[⟨"s", ⟨0, 0, 0⟩, 1, 2, true⟩], [], []⟩ ≤
        signalComputeInfluence ⟨"s", ⟨0, 0, 0⟩, 1, 2, true⟩ p
          ⟨[⟨"s", ⟨0, 0, 0⟩, 1, 2, true⟩], [], []⟩) ∧
    (∀ point, (2:ℝ) ≤ dist3 ⟨0, 0, 0⟩ point →
      signalComputeInfluence ⟨"s", ⟨0, 0, 0⟩, 1, 2, true⟩ point
        ⟨[⟨"s", ⟨0, 0, 0⟩, 1, 2, true⟩], [], []⟩ = 0) :=
  C3_signal_falloff ⟨"s", ⟨0, 0, 0⟩, 1, 2, true⟩
    ⟨[⟨"s", ⟨0, 0, 0⟩, 1, 2, true⟩], [], []⟩ rfl rfl rfl rfl
    (by norm_num) (by norm_num)

/-! ## Battery strategy (`class BatteryStrategy`)

The `effectiveIntensityCache` and the solver's `currentValues` are JS
`Map<string, number>` values; both are modelled as `String → Option ℝ`.
In `update`, the cache and `currentValues` are seeded identically and
receive identical commits, so one map tracks both. -/

/-- `Map.set` on a functional map. -/
def fset (m : String → Option ℝ) (k : String) (v : ℝ) : String → Option ℝ :=
  fun k' => if k' = k then some v else m k'

/-- The commit loop `for (const [id, v] of newValues.entries())`:
every key written during the sweep overrides the previous value. -/
def mergeVals (newValues cur : String → Option ℝ) : String → Option ℝ :=
  fun k => match newValues k with
    | some v => some v
    | none => cur k

/-- Neighbor collection inside `BatteryStrategy.update`: ids connected to
`s` by any link. -/
def sensorNeighbors (ctx : HeatmapContext) (s : Sensor) : List String :=
  ctx.links.foldl (fun ns link =>
    if link.sensorA = s.id then ns ++ [link.sensorB]
    else if link.sensorB = s.id then ns ++ [link.sensorA]
    else ns) []

/-- One sensor's relaxation value in a sweep of `BatteryStrategy.update`:
`(ownIntensity + sum(neighborCurrentValues)) / (1 + neighborCount)`,
counting only neighbors that exist and are enabled; disabled sensors are
pinned to `0`. -/
def sensorNewVal (ctx : HeatmapContext) (cur : String → Option ℝ)
    (s : Sensor) : ℝ :=
  if s.enabled = true then
    let sc := (sensorNeighbors ctx s).foldl (fun sc nId =>
      match ctx.sensors.find? (fun t => t.id == nId) with
      | some neighbor =>
          if neighbor.enabled = true then
            (sc.1 + ((cur nId).getD 0), sc.2 + 1)
          else sc
      | none => sc) (s.intensity, (1 : ℝ))
    sc.1 / sc.2
  else 0

/-- One full sweep (`for (const s of context.sensors)`) of the solver:
returns the `newValues` map and the maximum absolute change. -/
def batteryIterOnce (ctx : HeatmapContext) (cur : String → Option ℝ) :
    (String → Option ℝ) × ℝ :=
  ctx.sensors.foldl (fun acc s =>
    (fset acc.1 s.id (sensorNewVal ctx cur s),
     if s.enabled = true then
       max acc.2 |sensorNewVal ctx cur s - (cur s.id).getD 0|
     else acc.2))
    (fun _ => none, 0)

/-- The iteration loop of `BatteryStrategy.update` (cap of 5 sweeps with
early exit once the max change drops below `0.001`); also returns the
number of sweeps performed. -/
def batteryLoop (ctx : HeatmapContext) : ℕ → (String → Option ℝ) →
    (String → Option ℝ) × ℕ
  | 0, cur => (cur, 0)
  | n + 1, cur =>
      let sweep := batteryIterOnce ctx cur
      let committed := mergeVals sweep.1 cur
      if sweep.2 < 0.001 then (committed, 1)
      else
        let rest := batteryLoop ctx n committed
        (rest.1, rest.2 + 1)

/-- `BatteryStrategy.update`: seeds the cache with raw intensities
(`0` for disabled sensors), skips iteration entirely when there are no
links, and otherwise runs up to 5 relaxation sweeps.  Returns the final
`effectiveIntensityCache` together with the number of sweeps run. -/
def batteryUpdate (ctx : HeatmapContext) : (String → Option ℝ) × ℕ :=
  let seeded := ctx.sensors.foldl
    (fun m s => fset m s.id (if s.enabled = true then s.intensity else 0))
    (fun _ => none)
  if ctx.links.length = 0 then (seeded, 0)
  else batteryLoop ctx 5 seeded

/-- `BatteryStrategy.computeInfluence`: quadratic falloff scaled by the
cached effective intensity (falling back to the raw intensity). -/
def batteryComputeInfluence (cache : String → Option ℝ) (sensor : Sensor)
    (point : Vec3) : ℝ :=
  if sensor.enabled = false then 0
  else
    let distance := dist3 sensor.position point
    if distance > sensor.radius then 0
    else
      let distanceFactor := 1 - (distance / sensor.radius) ^ 2
      let effective := (cache sensor.id).getD sensor.intensity
      effective * distanceFactor

/-- C4: for a context holding exactly two enabled sensors of equal
intensity joined by one link (of any weight), `BatteryStrategy.update`
exits after the first sweep (max change `< 0.001`), well within the
5-iteration cap, and caches each sensor's own starting intensity as its
effective intensity. -/
theorem C4_battery_two_linked (s1 s2 : Sensor) (lk : Link)
    (ctx : HeatmapContext)
    (hs : ctx.sensors = [s1, s2]) (hl : ctx.links = [lk])
    (he1 : s1.enabled = true) (he2 : s2.enabled = true)
    (hI : s2.intensity = s1.intensity) (hid : s1.id ≠ s2.id)
    (hA : lk.sensorA = s1.id) (hB : lk.sensorB = s2.id) :
    (batteryUpdate ctx).2 = 1 ∧ (batteryUpdate ctx).2 ≤ 5 ∧
    (batteryUpdate ctx).1 s1.id = some s1.intensity ∧
    (batteryUpdate ctx).1 s2.id = some s2.intensity := by
  have hid' : s2.id ≠ s1.id := Ne.symm hid
  have h12 : (s1.id == s2.id) = false := beq_eq_false_iff_ne.mpr hid
  have h21 : (s2.id == s1.id) = false := beq_eq_false_iff_ne.mpr hid'
  refine ⟨?_, ?_, ?_, ?_⟩ <;>
    norm_num [batteryUpdate, batteryLoop, batteryIterOnce, sensorNewVal,
      sensorNeighbors, fset, mergeVals, hs, hl, he1, he2, hA, hB, hI,
      hid, hid', h12, h21, List.find?, add_self_div_two]

/-- Witness for C4: two sensors of intensity `1/2` linked with weight `3`. -/
theorem C4_battery_two_linked_witness :
    (batteryUpdate ⟨[⟨"a", ⟨0, 0, 0⟩, 1/2, 2, true⟩,
        ⟨"b", ⟨1, 0, 0⟩, 1/2, 2, true⟩],
      [⟨"a-b", "a", "b", 3⟩], []⟩).2 = 1 ∧
    (batteryUpdate ⟨[⟨"a", ⟨0, 0, 0⟩, 1/2, 2, true⟩,
        ⟨"b", ⟨1, 0, 0⟩, 1/2, 2, true⟩],
      [⟨"a-b", "a", "b", 3⟩], []⟩).2 ≤ 5 ∧
    (batteryUpdate ⟨[⟨"a", ⟨0, 0, 0⟩, 1/2, 2, true⟩,
        ⟨"b", ⟨1, 0, 0⟩, 1/2, 2, true⟩],
      [⟨"a-b", "a", "b", 3⟩], []⟩).1 "a" = some (1/2) ∧
    (batteryUpdate ⟨[⟨"a", ⟨0, 0, 0⟩, 1/2, 2, true⟩,
        ⟨"b", ⟨1, 0, 0⟩, 1/2, 2, true⟩],
      [⟨"a-b", "a", "b", 3⟩], []⟩).1 "b" = some (1/2) :=
  C4_battery_two_linked
    ⟨"a", ⟨0, 0, 0⟩, 1/2, 2, true⟩ ⟨"b", ⟨1, 0, 0⟩, 1/2, 2, true⟩
    ⟨"a-b", "a", "b", 3⟩ _ rfl rfl rfl rfl rfl (by decide) rfl rfl

/-! ### Solver invariants -/

theorem iterOnce_fst (ctx : HeatmapContext) (cur : String → Option ℝ) :
    (batteryIterOnce ctx cur).1 =
      ctx.sensors.foldl (fun m s => fset m s.id (sensorNewVal ctx cur s))
        (fun _ => none) := by
  unfold batteryIterOnce
  generalize ctx.sensors = l
  have : ∀ (l : List Sensor) (acc : (String → Option ℝ) × ℝ),
      (l.foldl (fun acc s =>
        (fset acc.1 s.id (sensorNewVal ctx cur s),
         if s.enabled = true then
           max acc.2 |sensorNewVal ctx cur s - (cur s.id).getD 0|
         else acc.2)) acc).1 =
      l.foldl (fun m s => fset m s.id (sensorNewVal ctx cur s)) acc.1 := by
    intro l
    induction l with
    | nil => intro acc; rfl
    | cons s l ih =>
        intro acc
        simp only [List.foldl_cons, ih]
  exact this l _

theorem foldl_fset_lookup_notmem (g : Sensor → ℝ) (l : List Sensor)
    (m : String → Option ℝ) (k : String) (hk : ∀ s ∈ l, s.id ≠ k) :
    (l.foldl (fun m s => fset m s.id (g s)) m) k = m k := by
  induction l generalizing m with
  | nil => rfl
  | cons s l ih =>
      rw [List.foldl_cons,
        ih (fset m s.id (g s)) (fun t ht => hk t (List.mem_cons_of_mem s ht))]
      unfold fset
      rw [if_neg (fun h => hk s (List.mem_cons_self s l) h.symm)]

theorem foldl_fset_lookup_self (g : Sensor → ℝ) (l : List Sensor)
    (m : String → Option ℝ) (s : Sensor) (hs : s ∈ l)
    (hnd : (l.map Sensor.id).Nodup) :
    (l.foldl (fun m s => fset m s.id (g s)) m) s.id = some (g s) := by
  induction l generalizing m with
  | nil => cases hs
  | cons t l ih =>
      rw [List.map_cons, List.nodup_cons] at hnd
      rcases List.mem_cons.mp hs with h | h
      · subst h
        rw [List.foldl_cons]
        rw [foldl_fset_lookup_notmem g l (fset m s.id (g s)) s.id ?_]
        · unfold fset; rw [if_pos rfl]
        · intro u hu h
          exact hnd.1 (h ▸ List.mem_map_of_mem Sensor.id hu)
      · rw [List.foldl_cons]
        exact ih _ h hnd.2

theorem foldl_fset_values (g : Sensor → ℝ) (P : ℝ → Prop) (l : List Sensor)
    (m : String → Option ℝ) (hm : ∀ k v, m k = some v → P v)
    (hg : ∀ s ∈ l, P (g s)) :
    ∀ k v, (l.foldl (fun m s => fset m s.id (g s)) m) k = some v → P v := by
  refine foldl_invariant (fun m => ∀ k v, m k = some v → P v) _ l m hm ?_
  intro m' s hm' hsl k v hkv
  unfold fset at hkv
  by_cases h : k = s.id
  · rw [if_pos h] at hkv
    injection hkv with hv
    exact hv ▸ hg s hsl
  · rw [if_neg h] at hkv
    exact hm' k v hkv

/-- Bounds on one sensor's relaxation value from bounds on its own
intensity and on the values read for its enabled neighbors: the sweep
averages and never escapes `[a, b]`. -/
theorem sensorNewVal_bounds (ctx : HeatmapContext) (cur : String → Option ℝ)
    (s : Sensor) (a b : ℝ) (he : s.enabled = true)
    (hsi : a ≤ s.intensity ∧ s.intensity ≤ b)
    (hnb : ∀ nId t, ctx.sensors.find? (fun t' => t'.id == nId) = some t →
      t.enabled = true → a ≤ (cur nId).getD 0 ∧ (cur nId).getD 0 ≤ b) :
    a ≤ sensorNewVal ctx cur s ∧ sensorNewVal ctx cur s ≤ b := by
  unfold sensorNewVal
  rw [if_pos he]
  have key : ∀ (ns : List String) (init : ℝ × ℝ),
      1 ≤ init.2 → a * init.2 ≤ init.1 → init.1 ≤ b * init.2 →
      (1 ≤ (ns.foldl (fun sc nId =>
        match ctx.sensors.find? (fun t => t.id == nId) with
        | some neighbor =>
            if neighbor.enabled = true then
              (sc.1 + ((cur nId).getD 0), sc.2 + 1)
            else sc
        | none => sc) init).2 ∧
      a * (ns.foldl (fun sc nId =>
        match ctx.sensors.find? (fun t => t.id == nId) with
        | some neighbor =>
            if neighbor.enabled = true then
              (sc.1 + ((cur nId).getD 0), sc.2 + 1)
            else sc
        | none => sc) init).2 ≤ (ns.foldl (fun sc nId =>
        match ctx.sensors.find? (fun t => t.id == nId) with
        | some neighbor =>
            if neighbor.enabled = true then
              (sc.1 + ((cur nId).getD 0), sc.2 + 1)
            else sc
        | none => sc) init).1 ∧
      (ns.foldl (fun sc nId =>
        match ctx.sensors.find? (fun t => t.id == nId) with
        | some neighbor =>
            if neighbor.enabled = true then
              (sc.1 + ((cur nId).getD 0), sc.2 + 1)
            else sc
        | none => sc) init).1 ≤ b * (ns.foldl (fun sc nId =>
        match ctx.sensors.find? (fun t => t.id == nId) with
        | some neighbor =>
            if neighbor.enabled = true then
              (sc.1 + ((cur nId).getD 0), sc.2 + 1)
            else sc
        | none => sc) init).2) := by
    intro ns
    induction ns with
    | nil => intro init h1 h2 h3; exact ⟨h1, h2, h3⟩
    | cons nId ns ih =>
        intro init h1 h2 h3
        rw [List.foldl_cons]
        rcases hfind : ctx.sensors.find? (fun t => t.id == nId) with _ | t
        · simp only [hfind]
          exact ih init h1 h2 h3
        · simp only [hfind]
          by_cases hen : t.enabled = true
          · rw [if_pos hen]
            have hv := hnb nId t hfind hen
            refine ih _ (by simp; linarith) ?_ ?_
            · simp only [mul_add, mul_one]; linarith [hv.1]
            · simp only [mul_add, mul_one]; linarith [hv.2]
          · rw [if_neg hen]
            exact ih init h1 h2 h3
  have hk := key (sensorNeighbors ctx s) (s.intensity, 1)
    (le_refl 1) (by simpa using hsi.1) (by simpa using hsi.2)
  have hpos : (0:ℝ) < ((sensorNeighbors ctx s).foldl (fun sc nId =>
      match ctx.sensors.find? (fun t => t.id == nId) with
      | some neighbor =>
          if neighbor.enabled = true then
            (sc.1 + ((cur nId).getD 0), sc.2 + 1)
          else sc
      | none => sc) (s.intensity, (1 : ℝ))).2 := lt_of_lt_of_le one_pos hk.1
  constructor
  · rw [le_div_iff hpos]; exact hk.2.1
  · rw [div_le_iff hpos]; exact hk.2.2

/-- A disabled sensor's relaxation value is pinned to zero. -/
theorem sensorNewVal_disabled (ctx : HeatmapContext) (cur : String → Option ℝ)
    (s : Sensor) (he : s.enabled = false) : sensorNewVal ctx cur s = 0 := by
  unfold sensorNewVal
  rw [if_neg (by rw [he]; exact Bool.false_ne_true)]

/-- Invariant: every enabled sensor's cached value stays in `[a, b]`. -/
def CacheEnBounded (ctx : HeatmapContext) (a b : ℝ)
    (m : String → Option ℝ) : Prop :=
  ∀ s ∈ ctx.sensors, s.enabled = true →
    ∃ v, m s.id = some v ∧ a ≤ v ∧ v ≤ b

/-- Invariant: every disabled sensor's cached value is `0`. -/
def CacheDisZero (ctx : HeatmapContext) (m : String → Option ℝ) : Prop :=
  ∀ s ∈ ctx.sensors, s.enabled = false → m s.id = some 0

theorem commit_lookup (ctx : HeatmapContext) (cur : String → Option ℝ)
    (s : Sensor) (hs : s ∈ ctx.sensors)
    (hnd : (ctx.sensors.map Sensor.id).Nodup) :
    mergeVals (batteryIterOnce ctx cur).1 cur s.id =
      some (sensorNewVal ctx cur s) := by
  unfold mergeVals
  rw [iterOnce_fst,
    foldl_fset_lookup_self (sensorNewVal ctx cur) ctx.sensors _ s hs hnd]

theorem commit_disZero (ctx : HeatmapContext) (cur : String → Option ℝ)
    (hnd : (ctx.sensors.map Sensor.id).Nodup) :
    CacheDisZero ctx (mergeVals (batteryIterOnce ctx cur).1 cur) := by
  intro s hs he
  rw [commit_lookup ctx cur s hs hnd, sensorNewVal_disabled ctx cur s he]

theorem commit_enBounded (ctx : HeatmapContext) (cur : String → Option ℝ)
    (a b : ℝ) (hnd : (ctx.sensors.map Sensor.id).Nodup)
    (hab : ∀ t ∈ ctx.sensors, t.enabled = true →
      a ≤ t.intensity ∧ t.intensity ≤ b)
    (hcur : CacheEnBounded ctx a b cur) :
    CacheEnBounded ctx a b (mergeVals (batteryIterOnce ctx cur).1 cur) := by
  intro s hs he
  refine ⟨sensorNewVal ctx cur s, commit_lookup ctx cur s hs hnd, ?_⟩
  refine sensorNewVal_bounds ctx cur s a b he (hab s hs he) ?_
  intro nId t hfind hten
  have htmem := List.mem_of_find?_eq_some hfind
  have htid : t.id = nId := by
    have := List.find?_some hfind
    simpa using this
  rcases hcur t htmem hten with ⟨v, hv, hva, hvb⟩
  rw [← htid, hv]
  exact ⟨hva, hvb⟩

theorem batteryLoop_disZero (ctx : HeatmapContext) (fuel : ℕ)
    (cur : String → Option ℝ) (hnd : (ctx.sensors.map Sensor.id).Nodup)
    (hcur : CacheDisZero ctx cur) :
    CacheDisZero ctx (batteryLoop ctx fuel cur).1 := by
  induction fuel generalizing cur with
  | zero => exact hcur
  | succ n ih =>
      unfold batteryLoop
      by_cases h : (batteryIterOnce ctx cur).2 < 0.001
      · simp only [if_pos h]
        exact commit_disZero ctx cur hnd
      · simp only [if_neg h]
        exact ih _ (commit_disZero ctx cur hnd)

theorem batteryLoop_enBounded (ctx : HeatmapContext) (a b : ℝ) (fuel : ℕ)
    (cur : String → Option ℝ) (hnd : (ctx.sensors.map Sensor.id).Nodup)
    (hab : ∀ t ∈ ctx.sensors, t.enabled = true →
      a ≤ t.intensity ∧ t.intensity ≤ b)
    (hcur : CacheEnBounded ctx a b cur) :
    CacheEnBounded ctx a b (batteryLoop ctx fuel cur).1 := by
  induction fuel generalizing cur with
  | zero => exact hcur
  | succ n ih =>
      unfold batteryLoop
      by_cases h : (batteryIterOnce ctx cur).2 < 0.001
      · simp only [if_pos h]
        exact commit_enBounded ctx cur a b hnd hab hcur
      · simp only [if_neg h]
        exact ih _ (commit_enBounded ctx cur a b hnd hab hcur)

theorem seeded_lookup (ctx : HeatmapContext) (s : Sensor)
    (hs : s ∈ ctx.sensors) (hnd : (ctx.sensors.map Sensor.id).Nodup) :
    (ctx.sensors.foldl
      (fun m s => fset m s.id (if s.enabled = true then s.intensity else 0))
      (fun _ => none)) s.id =
      some (if s.enabled = true then s.intensity else 0) :=
  foldl_fset_lookup_self
    (fun s => if s.enabled = true then s.intensity else 0)
    ctx.sensors _ s hs hnd

/-- C9: after `BatteryStrategy.update` on a context whose sensor ids are
distinct, every disabled sensor's cached effective intensity is `0`, every
enabled sensor's cached value lies within any bounds enclosing all enabled
raw intensities (in particular between their minimum and maximum), and if
all intensities lie in `[0,1]`, so does every cached value. -/
theorem C9_battery_cache_bounds (ctx : HeatmapContext)
    (hnd : (ctx.sensors.map Sensor.id).Nodup) :
    (∀ s ∈ ctx.sensors, s.enabled = false →
      (batteryUpdate ctx).1 s.id = some 0) ∧
    (∀ a b, (∀ t ∈ ctx.sensors, t.enabled = true →
        a ≤ t.intensity ∧ t.intensity ≤ b) →
      ∀ s ∈ ctx.sensors, s.enabled = true →
        ∃ v, (batteryUpdate ctx).1 s.id = some v ∧ a ≤ v ∧ v ≤ b) ∧
    ((∀ t ∈ ctx.sensors, 0 ≤ t.intensity ∧ t.intensity ≤ 1) →
      ∀ s ∈ ctx.sensors, ∃ v,
        (batteryUpdate ctx).1 s.id = some v ∧ 0 ≤ v ∧ v ≤ 1) := by
  have hseed_dis : CacheDisZero ctx (ctx.sensors.foldl
      (fun m s => fset m s.id (if s.enabled = true then s.intensity else 0))
      (fun _ => none)) := by
    intro s hs he
    rw [seeded_lookup ctx s hs hnd, if_neg (by rw [he]; exact Bool.false_ne_true)]
  have hseed_en : ∀ a b, (∀ t ∈ ctx.sensors, t.enabled = true →
      a ≤ t.intensity ∧ t.intensity ≤ b) →
      CacheEnBounded ctx a b (ctx.sensors.foldl
        (fun m s => fset m s.id (if s.enabled = true then s.intensity else 0))
        (fun _ => none)) := by
    intro a b hab s hs he
    refine ⟨s.intensity, ?_, hab s hs he⟩
    rw [seeded_lookup ctx s hs hnd, if_pos he]
  have hdis : ∀ s ∈ ctx.sensors, s.enabled = false →
      (batteryUpdate ctx).1 s.id = some 0 := by
    intro s hs he
    unfold batteryUpdate
    by_cases hlinks : ctx.links.length = 0
    · simp only [if_pos hlinks]
      exact hseed_dis s hs he
    · simp only [if_neg hlinks]
      exact batteryLoop_disZero ctx 5 _ hnd hseed_dis s hs he
  have hen : ∀ a b, (∀ t ∈ ctx.sensors, t.enabled = true →
      a ≤ t.intensity ∧ t.intensity ≤ b) →
      ∀ s ∈ ctx.sensors, s.enabled = true →
        ∃ v, (batteryUpdate ctx).1 s.id = some v ∧ a ≤ v ∧ v ≤ b := by
    intro a b hab s hs he
    unfold batteryUpdate
    by_cases hlinks : ctx.links.length = 0
    · simp only [if_pos hlinks]
      exact hseed_en a b hab s hs he
    · simp only [if_neg hlinks]
      exact batteryLoop_enBounded ctx a b 5 _ hnd hab (hseed_en a b hab) s hs he
  refine ⟨hdis, hen, ?_⟩
  intro hall s hs
  cases he : s.enabled with
  | true =>
      exact hen 0 1 (fun t ht _ => hall t ht) s hs he
  | false =>
      exact ⟨0, hdis s hs he, le_refl 0, zero_le_one⟩

/-- A concrete two-sensor context (one enabled, one disabled, linked),
used as the witness input for C9. -/
def ctxC9 : HeatmapContext :=
  ⟨[⟨"a", ⟨0, 0, 0⟩, 1/2, 2, true⟩, ⟨"b", ⟨1, 0, 0⟩, 1/4, 2, false⟩],
   [⟨"a-b", "a", "b", 1⟩], []⟩

/-- Witness for C9 on a two-sensor context (one enabled, one disabled). -/
theorem C9_battery_cache_bounds_witness :
    (∀ s ∈ ctxC9.sensors, s.enabled = false →
      (batteryUpdate ctxC9).1 s.id = some 0) ∧
    (∀ a b, (∀ t ∈ ctxC9.sensors, t.enabled = true →
        a ≤ t.intensity ∧ t.intensity ≤ b) →
      ∀ s ∈ ctxC9.sensors, s.enabled = true →
        ∃ v, (batteryUpdate ctxC9).1 s.id = some v ∧ a ≤ v ∧ v ≤ b) ∧
    ((∀ t ∈ ctxC9.sensors, 0 ≤ t.intensity ∧ t.intensity ≤ 1) →
      ∀ s ∈ ctxC9.sensors, ∃ v,
        (batteryUpdate ctxC9).1 s.id = some v ∧ 0 ≤ v ∧ v ≤ 1) :=
  C9_battery_cache_bounds ctxC9 (by simp [ctxC9])

/-! ## Strategy dispatch (`interface HeatmapStrategy`)

Both concrete strategies inherit `combineInfluences` from
`BaseHeatmapStrategy`, so only `computeInfluence` is dispatched.  The
Battery variant closes over its `effectiveIntensityCache`. -/

/-- The per-sensor influence function of the active strategy. -/
structure Strategy where
  computeInfluence : Sensor → Vec3 → HeatmapContext → ℝ

/-- `new SignalStrategy()`. -/
def signalStrategy : Strategy := ⟨signalComputeInfluence⟩

/-- `new BatteryStrategy()` with a given cache state (the cache the
controller's render pass observes is the one produced by `update`). -/
def batteryStrategy (cache : String → Option ℝ) : Strategy :=
  ⟨fun sensor point _ => batteryComputeInfluence cache sensor point⟩

/-! ## Rasterizer (`HeatmapController.computeHeatmap`) -/

/-- Axis name tag (the `name: 'x' | 'y' | 'z'` field). -/
inductive Axis where
  | x
  | y
  | z
deriving DecidableEq, Repr

/-- One entry of the `dimensions` array. -/
structure Dim where
  axis : Axis
  size : ℝ
  min : ℝ
  max : ℝ

/-- `.sort((a, b) => b.size - a.size)` on the three dimensions:
stable descending sort by size (`Array.prototype.sort` is stable), here
written as insertion of three elements. -/
def sortDims3 (a b c : Dim) : Dim × Dim × Dim :=
  let l1 := if b.size > a.size then (b, a) else (a, b)
  if c.size > l1.1.size then (c, l1.1, l1.2)
  else if c.size > l1.2.size then (l1.1, c, l1.2)
  else (l1.1, l1.2, c)

/-- Aggregate mesh bounds (`this.meshBounds`). -/
structure Bounds where
  min : Vec3
  max : Vec3

/-- The world-space sample point of grid cell `(x, y)`: normalized `u`/`v`
along the two largest extents, the shortest extent collapsed to its
midpoint. -/
def heatmapPoint (cfg : Config) (dims : Dim × Dim × Dim) (size : ℕ)
    (x y : ℕ) : Vec3 :=
  let u := (x : ℝ) / ((size : ℝ) - 1)
  let v := (y : ℝ) / ((size : ℝ) - 1)
  let vUsed := if cfg.uvVFlipped = true then 1 - v else v
  let coord1 := dims.1.min + u * dims.1.size
  let coord2 := dims.2.1.min + vUsed * dims.2.1.size
  let coord3 := (dims.2.2.min + dims.2.2.max) / 2
  ⟨if dims.1.axis = .x then coord1
    else if dims.2.1.axis = .x then coord2 else coord3,
   if dims.1.axis = .y then coord1
    else if dims.2.1.axis = .y then coord2 else coord3,
   if dims.1.axis = .z then coord1
    else if dims.2.1.axis = .z then coord2 else coord3⟩

/-- The per-cell body of `computeHeatmap`: gather positive influences of
enabled sensors, count the zero-intensity ones when `zeroForceRed` is on,
then either force `0` or combine. -/
def cellValue (strat : Strategy) (cfg : Config) (ctx : HeatmapContext)
    (point : Vec3) : ℝ :=
  let enabledSensors := ctx.sensors.filter (fun s => s.enabled)
  let enabledSensorsCount := enabledSensors.length
  let zeroSensorsCount :=
    if cfg.zeroForceRed = true then
      (enabledSensors.filter (fun s => decide (s.intensity = 0))).length
    else 0
  let influences :=
    (enabledSensors.map (fun s => strat.computeInfluence s point ctx)).filter
      (fun influence => decide (influence > 0))
  let allSensorsZero :=
    enabledSensorsCount > 0 ∧ zeroSensorsCount = enabledSensorsCount
  if allSensorsZero ∧ cfg.zeroForceRed = true then 0
  else if influences.length > 0 then
    combineInfluences influences cfg.combineMode
  else 0

/-- `HeatmapController.computeHeatmap`: flatten the bounding box along its
shortest extent and evaluate every cell of the `size × size` grid. -/
def computeHeatmap (strat : Strategy) (cfg : Config) (bounds : Bounds)
    (ctx : HeatmapContext) : List (List ℝ) :=
  let size := cfg.textureSize
  let width := bounds.max.x - bounds.min.x
  let height := bounds.max.y - bounds.min.y
  let depth := bounds.max.z - bounds.min.z
  let dims := sortDims3 ⟨.x, width, bounds.min.x, bounds.max.x⟩
    ⟨.y, height, bounds.min.y, bounds.max.y⟩
    ⟨.z, depth, bounds.min.z, bounds.max.z⟩
  (List.range size).map (fun y =>
    (List.range size).map (fun x =>
      cellValue strat cfg ctx (heatmapPoint cfg dims size x y)))

/-! ## Entity store and mutation API (`HeatmapController`)

The controller's `Map<string, _>` collections are modelled as association
lists in insertion order; `Map.set` replaces in place or appends. -/

/-- `Map.get`. -/
def alGet {α : Type} : List (String × α) → String → Option α
  | [], _ => none
  | (k', v) :: rest, k => if k' = k then some v else alGet rest k

/-- `Map.set`. -/
def alSet {α : Type} : List (String × α) → String → α → List (String × α)
  | [], k, v => [(k, v)]
  | (k', v') :: rest, k, v =>
      if k' = k then (k, v) :: rest else (k', v') :: alSet rest k v

/-- `Map.delete`. -/
def alDelete {α : Type} (m : List (String × α)) (k : String) :
    List (String × α) :=
  m.filter (fun kv => !(kv.1 == k))

/-- The controller's mutable entity collections plus its configuration. -/
structure Store where
  sensors : List (String × Sensor)
  links : List (String × Link)
  attenuators : List (String × AttenuationPoint)
  config : Config

/-- The optional fields of `addSensor`'s `options` parameter
(`attachMesh` is rendering-only and omitted). -/
structure SensorOptions where
  intensity : Option ℝ
  radius : Option ℝ

/-- `Partial<Sensor>` as used by `updateSensor` (patching `id` or
`attachedMesh` is never exercised and omitted). -/
structure SensorPatch where
  position : Option Vec3
  intensity : Option ℝ
  radius : Option ℝ
  enabled : Option Bool

/-- `Partial<AttenuationPoint>` as used by `updateAttenuator`. -/
structure AttenuatorPatch where
  position : Option Vec3
  factor : Option ℝ
  radius : Option ℝ

/-- `HeatmapController.addSensor`: defaults `intensity` to 1 when absent;
`options?.radius || defaultRadius` falls back to the default when the
radius is absent or `0` (falsy). -/
def addSensor (st : Store) (id : String) (position : Vec3)
    (opts : SensorOptions) : Store :=
  let sensor : Sensor :=
    { id := id
      position := position
      intensity := opts.intensity.getD 1
      radius := match opts.radius with
        | some r => if r = 0 then st.config.defaultRadius else r
        | none => st.config.defaultRadius
      enabled := true }
  { st with sensors := alSet st.sensors id sensor }

/-- `HeatmapController.removeSensor`: deletes the sensor, collects the ids
of links referencing it, then deletes those links. -/
def removeSensor (st : Store) (id : String) : Store :=
  let linksToRemove := (st.links.filter
    (fun kv => kv.2.sensorA == id || kv.2.sensorB == id)).map Prod.fst
  { st with
    sensors := alDelete st.sensors id
    links := st.links.filter (fun kv => !(linksToRemove.contains kv.1)) }

/-- `Object.assign(sensor, patch)` (with the separate `position.copyFrom`
branch folded in — both paths apply every present field). -/
def applySensorPatch (s : Sensor) (patch : SensorPatch) : Sensor :=
  { id := s.id
    position := patch.position.getD s.position
    intensity := patch.intensity.getD s.intensity
    radius := patch.radius.getD s.radius
    enabled := patch.enabled.getD s.enabled }

/-- `HeatmapController.updateSensor`: silently a no-op on unknown ids. -/
def updateSensor (st : Store) (id : String) (patch : SensorPatch) : Store :=
  match alGet st.sensors id with
  | none => st
  | some s =>
      { st with sensors := alSet st.sensors id (applySensorPatch s patch) }

/-- `HeatmapController.getSensor`. -/
def getSensor (st : Store) (id : String) : Option Sensor :=
  alGet st.sensors id

/-- `HeatmapController.addLink`: the id is the ordered pair "{a}-{b}". -/
def addLink (st : Store) (sensorAId sensorBId : String) (weight : ℝ) :
    Store :=
  let id := sensorAId ++ "-" ++ sensorBId
  { st with links := alSet st.links id ⟨id, sensorAId, sensorBId, weight⟩ }

/-- `HeatmapController.removeLink`. -/
def removeLink (st : Store) (id : String) : Store :=
  { st with links := alDelete st.links id }

/-- `HeatmapController.clearLinks`. -/
def clearLinks (st : Store) : Store :=
  { st with links := [] }

/-- `HeatmapController.addAttenuator`. -/
def addAttenuator (st : Store) (id : String) (position : Vec3)
    (factor radius : ℝ) : Store :=
  { st with
    attenuators := alSet st.attenuators id ⟨id, position, factor, radius⟩ }

/-- `HeatmapController.removeAttenuator`. -/
def removeAttenuator (st : Store) (id : String) : Store :=
  { st with attenuators := alDelete st.attenuators id }

/-- `Object.assign(att, patch)`. -/
def applyAttenuatorPatch (a : AttenuationPoint) (patch : AttenuatorPatch) :
    AttenuationPoint :=
  { id := a.id
    position := patch.position.getD a.position
    factor := patch.factor.getD a.factor
    radius := patch.radius.getD a.radius }

/-- `HeatmapController.updateAttenuator`: silently a no-op on unknown ids. -/
def updateAttenuator (st : Store) (id : String) (patch : AttenuatorPatch) :
    Store :=
  match alGet st.attenuators id with
  | none => st
  | some a =>
      { st with
        attenuators := alSet st.attenuators id (applyAttenuatorPatch a patch) }

/-- One call to the mutation API. -/
inductive MutOp where
  | addSensor (id : String) (position : Vec3) (opts : SensorOptions)
  | removeSensor (id : String)
  | updateSensor (id : String) (patch : SensorPatch)
  | addLink (sensorAId sensorBId : String) (weight : ℝ)
  | removeLink (id : String)
  | clearLinks
  | addAttenuator (id : String) (position : Vec3) (factor radius : ℝ)
  | removeAttenuator (id : String)
  | updateAttenuator (id : String) (patch : AttenuatorPatch)

/-- Dispatch one mutation. -/
def applyOp (st : Store) : MutOp → Store
  | .addSensor id pos opts => addSensor st id pos opts
  | .removeSensor id => removeSensor st id
  | .updateSensor id patch => updateSensor st id patch
  | .addLink a b w => addLink st a b w
  | .removeLink id => removeLink st id
  | .clearLinks => clearLinks st
  | .addAttenuator id pos f r => addAttenuator st id pos f r
  | .removeAttenuator id => removeAttenuator st id
  | .updateAttenuator id patch => updateAttenuator st id patch

/-- A sequence of mutation-API calls. -/
def applyOps (st : Store) (ops : List MutOp) : Store :=
  ops.foldl applyOp st

/-- A freshly constructed controller: empty collections. -/
def initStore (cfg : Config) : Store :=
  ⟨[], [], [], cfg⟩

/-- The `HeatmapContext` the controller builds from its collections
(`Array.from(map.values())`, i.e. values in insertion order). -/
def toContext (st : Store) : HeatmapContext :=
  ⟨st.sensors.map Prod.snd, st.links.map Prod.snd,
   st.attenuators.map Prod.snd⟩

/-- The render pass with the Signal strategy active. -/
def controllerComputeSignal (st : Store) (bounds : Bounds) :
    List (List ℝ) :=
  computeHeatmap signalStrategy st.config bounds (toContext st)

/-- The render pass with the Battery strategy active: `update` runs once
per pass before rasterization, and `computeInfluence` reads the cache it
produced. -/
def controllerComputeBattery (st : Store) (bounds : Bounds) :
    List (List ℝ) :=
  computeHeatmap (batteryStrategy (batteryUpdate (toContext st)).1)
    st.config bounds (toContext st)

/-- The controller constructor's fallback configuration values
(`combineMode: 'max'`, `zeroForceRed: true`, `textureSize: 128`,
`uvVFlipped: true`, `defaultRadius: 2.5`). -/
def cfgDefault : Config :=
  ⟨.max, true, 128, true, 2.5⟩

/-! ### Association-list lemmas -/

theorem alGet_alSet_self {α : Type} (m : List (String × α)) (k : String)
    (v : α) : alGet (alSet m k v) k = some v := by
  induction m with
  | nil => simp [alSet, alGet]
  | cons kv rest ih =>
      obtain ⟨k', v'⟩ := kv
      by_cases h : k' = k
      · simp [alSet, h, alGet]
      · simp only [alSet, if_neg h, alGet]
        exact ih

theorem alGet_mem {α : Type} (m : List (String × α)) (k : String) (v : α)
    (h : alGet m k = some v) : (k, v) ∈ m := by
  induction m with
  | nil => cases h
  | cons kv rest ih =>
      obtain ⟨k', v'⟩ := kv
      unfold alGet at h
      by_cases hk : k' = k
      · rw [if_pos hk] at h
        injection h with h
        subst hk; subst h
        exact List.mem_cons_self _ _
      · rw [if_neg hk] at h
        exact List.mem_cons_of_mem _ (ih h)

theorem alGet_eq_none_of_keys {α : Type} (m : List (String × α)) (k : String)
    (h : ∀ kv ∈ m, kv.1 ≠ k) : alGet m k = none := by
  induction m with
  | nil => rfl
  | cons kv rest ih =>
      obtain ⟨k', v'⟩ := kv
      unfold alGet
      rw [if_neg (h (k', v') (List.mem_cons_self _ _))]
      exact ih (fun kv hkv => h kv (List.mem_cons_of_mem _ hkv))

theorem alGet_filter_of_get {α : Type} (m : List (String × α))
    (p : String × α → Bool) (k : String) (v : α)
    (h : alGet m k = some v) (hp : p (k, v) = true) :
    alGet (m.filter p) k = some v := by
  induction m with
  | nil => cases h
  | cons kv rest ih =>
      obtain ⟨k', v'⟩ := kv
      unfold alGet at h
      by_cases hk : k' = k
      · rw [if_pos hk] at h
        injection h with h
        subst hk; subst h
        rw [List.filter_cons, if_pos hp]
        unfold alGet
        rw [if_pos rfl]
      · rw [if_neg hk] at h
        rw [List.filter_cons]
        by_cases hpk : p (k', v') = true
        · rw [if_pos hpk]
          unfold alGet
          rw [if_neg hk]
          exact ih h
        · rw [if_neg hpk]
          exact ih h

/-! ### C2: the zero-force-red rule -/

/-- One cell under the zero-force rule: when `zeroForceRed` is on, at
least one sensor is enabled, and every enabled sensor has intensity `0`,
the cell is forced to `0` whatever `computeInfluence` returned. -/
theorem cellValue_forced (strat : Strategy) (cfg : Config)
    (ctx : HeatmapContext) (point : Vec3) (hz : cfg.zeroForceRed = true)
    (hen : ∃ s ∈ ctx.sensors, s.enabled = true)
    (hzero : ∀ s ∈ ctx.sensors, s.enabled = true → s.intensity = 0) :
    cellValue strat cfg ctx point = 0 := by
  have h2 : (ctx.sensors.filter (fun s => s.enabled)).filter
      (fun s => decide (s.intensity = 0)) =
      ctx.sensors.filter (fun s => s.enabled) := by
    apply List.filter_eq_self.mpr
    intro s hs
    have hmem := List.mem_filter.mp hs
    exact decide_eq_true (hzero s hmem.1 hmem.2)
  have h1 : 0 < (ctx.sensors.filter (fun s => s.enabled)).length := by
    obtain ⟨s, hs, he⟩ := hen
    exact List.length_pos.mpr
      (List.ne_nil_of_mem (List.mem_filter.mpr ⟨hs, he⟩))
  unfold cellValue
  simp only [hz, h2, and_true, gt_iff_lt]
  rw [if_pos ⟨h1, rfl⟩]

/-- C2: with `zeroForceRed = true`, for every strategy influence function,
bounding region and resolution, if the store has at least one enabled
sensor and every enabled sensor has intensity exactly `0`, every cell of
the grid returned by `computeHeatmap` is exactly `0`. -/
theorem C2_zeroForceRed_grid (strat : Strategy) (st : Store)
    (bounds : Bounds) (hz : st.config.zeroForceRed = true)
    (hen : ∃ p ∈ st.sensors, p.2.enabled = true)
    (hzero : ∀ p ∈ st.sensors, p.2.enabled = true → p.2.intensity = 0) :
    ∀ row ∈ computeHeatmap strat st.config bounds (toContext st),
      ∀ c ∈ row, c = 0 := by
  intro row hrow c hc
  unfold computeHeatmap at hrow
  obtain ⟨y, _, hy⟩ := List.mem_map.mp hrow
  subst hy
  obtain ⟨x, _, hx⟩ := List.mem_map.mp hc
  subst hx
  refine cellValue_forced strat st.config (toContext st) _ hz ?_ ?_
  · obtain ⟨p, hp, hpe⟩ := hen
    exact ⟨p.2, List.mem_map_of_mem Prod.snd hp, hpe⟩
  · intro s hs he
    obtain ⟨p, hp, hps⟩ := List.mem_map.mp hs
    exact hps ▸ hzero p hp (by rw [hps]; exact he)

/-- Witness store for C2: two enabled sensors, both at intensity `0`. -/
def stC2 : Store :=
  ⟨[("a", ⟨"a", ⟨0, 0, 0⟩, 0, 2, true⟩), ("b", ⟨"b", ⟨1, 0, 0⟩, 0, 2, true⟩)],
   [], [], cfgDefault⟩

theorem headD_mem_or {α : Type} (l : List α) (d : α) :
    l.headD d = d ∨ l.headD d ∈ l := by
  cases l with
  | nil => exact Or.inl rfl
  | cons a l => exact Or.inr (List.mem_cons_self a l)

/-- Witness for C2 at a concrete store, region and strategy: the grid's
first cell (with fallback `0` for the impossible empty cases) is `0`. -/
theorem C2_zeroForceRed_grid_witness :
    ((computeHeatmap signalStrategy stC2.config ⟨⟨0, 0, 0⟩, ⟨2, 1, 0⟩⟩
      (toContext stC2)).headD []).headD 0 = 0 := by
  have h := C2_zeroForceRed_grid signalStrategy stC2 ⟨⟨0, 0, 0⟩, ⟨2, 1, 0⟩⟩ rfl
    ⟨("a", ⟨"a", ⟨0, 0, 0⟩, 0, 2, true⟩), by simp [stC2], rfl⟩
    (by
      intro p hp _
      simp only [stC2, List.mem_cons] at hp
      rcases hp with h | h | h
      · rw [h]
      · rw [h]
      · cases h)
  obtain hrow | hrow := headD_mem_or (computeHeatmap signalStrategy
    stC2.config ⟨⟨0, 0, 0⟩, ⟨2, 1, 0⟩⟩ (toContext stC2)) []
  · rw [hrow]
    rfl
  · obtain hcell | hcell := headD_mem_or ((computeHeatmap signalStrategy
      stC2.config ⟨⟨0, 0, 0⟩, ⟨2, 1, 0⟩⟩ (toContext stC2)).headD []) 0
    · rw [hcell]
    · exact h _ hrow _ hcell

/-! ### C8: unknown-id updates are no-ops -/

/-- C8: `updateSensor` and `updateAttenuator` on an identifier absent from
the corresponding collection return the store unchanged (no error is
raised; both are total functions). -/
theorem C8_update_unknown_noop (st : Store) (id : String)
    (patch : SensorPatch) (apatch : AttenuatorPatch)
    (h1 : alGet st.sensors id = none) (h2 : alGet st.attenuators id = none) :
    updateSensor st id patch = st ∧ updateAttenuator st id apatch = st := by
  constructor
  · unfold updateSensor
    rw [h1]
  · unfold updateAttenuator
    rw [h2]

/-- Witness for C8 on the empty store. -/
theorem C8_update_unknown_noop_witness :
    updateSensor (initStore cfgDefault) "ghost" ⟨none, none, some 7, none⟩ =
      initStore cfgDefault ∧
    updateAttenuator (initStore cfgDefault) "ghost" ⟨none, some 7, none⟩ =
      initStore cfgDefault :=
  C8_update_unknown_noop (initStore cfgDefault) "ghost"
    ⟨none, none, some 7, none⟩ ⟨none, some 7, none⟩ rfl rfl

/-! ### C10: the radius fallback in `addSensor` -/

/-- C10: `addSensor` stores `options.radius` exactly when it is provided
and nonzero (negative values included), and falls back to the configured
`defaultRadius` when the option is absent or `0` (a falsy value under
`||`). -/
theorem C10_addSensor_radius (st : Store) (id : String) (pos : Vec3)
    (opts : SensorOptions) :
    ∃ s, alGet (addSensor st id pos opts).sensors id = some s ∧
      (∀ r, opts.radius = some r → r ≠ 0 → s.radius = r) ∧
      ((opts.radius = none ∨ opts.radius = some 0) →
        s.radius = st.config.defaultRadius) := by
  refine ⟨_, alGet_alSet_self st.sensors id _, ?_, ?_⟩
  · intro r hr hne
    show (match opts.radius with
      | some r => if r = 0 then st.config.defaultRadius else r
      | none => st.config.defaultRadius) = r
    rw [hr]
    exact if_neg hne
  · rintro (h | h)
    · show (match opts.radius with
        | some r => if r = 0 then st.config.defaultRadius else r
        | none => st.config.defaultRadius) = st.config.defaultRadius
      rw [h]
    · show (match opts.radius with
        | some r => if r = 0 then st.config.defaultRadius else r
        | none => st.config.defaultRadius) = st.config.defaultRadius
      rw [h]
      exact if_pos rfl

/-- Witness for C10: an explicit radius of `-1` is stored as given. -/
theorem C10_addSensor_radius_witness :
    ∃ s, alGet (addSensor (initStore cfgDefault) "a" ⟨0, 0, 0⟩
      ⟨none, some (-1)⟩).sensors "a" = some s ∧ s.radius = -1 := by
  obtain ⟨s, hs, hprov, _⟩ := C10_addSensor_radius (initStore cfgDefault)
    "a" ⟨0, 0, 0⟩ ⟨none, some (-1)⟩
  exact ⟨s, hs, hprov (-1) rfl (by norm_num)⟩

/-! ### C7: cascade deletion of links -/

theorem nodup_keys_eq {α : Type} (m : List (String × α))
    (hnd : (m.map Prod.fst).Nodup) (k : String) (a b : α)
    (ha : (k, a) ∈ m) (hb : (k, b) ∈ m) : a = b := by
  induction m with
  | nil => cases ha
  | cons kv rest ih =>
      rw [List.map_cons, List.nodup_cons] at hnd
      rcases List.mem_cons.mp ha with h1 | h1 <;>
        rcases List.mem_cons.mp hb with h2 | h2
      · have h3 : (k, a) = (k, b) := h1.trans h2.symm
        injection h3 with h4 h5
      · rw [← h1] at hnd
        exact absurd (List.mem_map_of_mem Prod.fst h2) hnd.1
      · rw [← h2] at hnd
        exact absurd (List.mem_map_of_mem Prod.fst h1) hnd.1
      · exact ih hnd.2 h1 h2

theorem alGet_cons {α : Type} (k' : String) (v' : α)
    (rest : List (String × α)) (k : String) :
    alGet ((k', v') :: rest) k = if k' = k then some v' else alGet rest k :=
  rfl

theorem alGet_alDelete_ne {α : Type} (m : List (String × α))
    (id sid : String) (h : sid ≠ id) :
    alGet (alDelete m id) sid = alGet m sid := by
  induction m with
  | nil => rfl
  | cons kv rest ih =>
      obtain ⟨k', v'⟩ := kv
      unfold alDelete at ih ⊢
      rw [List.filter_cons]
      by_cases hk : k' = id
      · rw [if_neg (show ¬((!(k' == id)) = true) by simp [hk])]
        rw [alGet_cons, if_neg (fun hks : k' = sid => h (hks ▸ hk))]
        exact ih
      · rw [if_pos (show (!(k' == id)) = true by simp [hk])]
        rw [alGet_cons, alGet_cons]
        by_cases hks : k' = sid
        · rw [if_pos hks, if_pos hks]
        · rw [if_neg hks, if_neg hks]
          exact ih

/-- C7: after `removeSensor id`, no stored link references `id` (looking
such links up yields "not found"), while links not referencing `id`,
sensors other than `id`, and all attenuators are untouched. -/
theorem C7_removeSensor_cascade (st : Store) (id : String)
    (hnd : (st.links.map Prod.fst).Nodup) :
    (∀ lid lk, alGet (removeSensor st id).links lid = some lk →
      lk.sensorA ≠ id ∧ lk.sensorB ≠ id) ∧
    (∀ lid lk, alGet st.links lid = some lk →
      lk.sensorA = id ∨ lk.sensorB = id →
      alGet (removeSensor st id).links lid = none) ∧
    (∀ lid lk, alGet st.links lid = some lk →
      lk.sensorA ≠ id → lk.sensorB ≠ id →
      alGet (removeSensor st id).links lid = some lk) ∧
    (∀ sid, sid ≠ id →
      alGet (removeSensor st id).sensors sid = alGet st.sensors sid) ∧
    (removeSensor st id).attenuators = st.attenuators := by
  refine ⟨?_, ?_, ?_, ?_, rfl⟩
  · intro lid lk h
    have hmem := alGet_mem _ lid lk h
    have hfil := List.mem_filter.mp hmem
    have hnotin : lid ∉ (st.links.filter
        (fun kv => kv.2.sensorA == id || kv.2.sensorB == id)).map Prod.fst := by
      simpa using hfil.2
    constructor
    · intro hA
      exact hnotin (List.mem_map_of_mem Prod.fst
        (List.mem_filter.mpr ⟨hfil.1, by simp [hA]⟩))
    · intro hB
      exact hnotin (List.mem_map_of_mem Prod.fst
        (List.mem_filter.mpr ⟨hfil.1, by simp [hB]⟩))
  · intro lid lk h href
    have hmem := alGet_mem st.links lid lk h
    have hin : lid ∈ (st.links.filter
        (fun kv => kv.2.sensorA == id || kv.2.sensorB == id)).map Prod.fst := by
      refine List.mem_map_of_mem Prod.fst (List.mem_filter.mpr ⟨hmem, ?_⟩)
      rcases href with hA | hB
      · simp [hA]
      · simp [hB]
    apply alGet_eq_none_of_keys
    intro kv hkv
    have hfil := List.mem_filter.mp hkv
    intro hkid
    have : kv.1 ∉ (st.links.filter
        (fun kv => kv.2.sensorA == id || kv.2.sensorB == id)).map Prod.fst := by
      simpa using hfil.2
    exact this (hkid ▸ hin)
  · intro lid lk h hA hB
    have hmem := alGet_mem st.links lid lk h
    have hnotin : lid ∉ (st.links.filter
        (fun kv => kv.2.sensorA == id || kv.2.sensorB == id)).map Prod.fst := by
      intro hin
      obtain ⟨kv, hkv, hkvid⟩ := List.mem_map.mp hin
      obtain ⟨k1, v1⟩ := kv
      simp only at hkvid
      subst hkvid
      have hfil := List.mem_filter.mp hkv
      have hv1 : v1 = lk := nodup_keys_eq st.links hnd k1 v1 lk hfil.1 hmem
      subst hv1
      have : v1.sensorA = id ∨ v1.sensorB = id := by
        simpa using hfil.2
      rcases this with hA' | hB'
      · exact hA hA'
      · exact hB hB'
    refine alGet_filter_of_get st.links _ lid lk h ?_
    simpa using hnotin
  · intro sid hsid
    exact alGet_alDelete_ne st.sensors id sid hsid

/-- Witness store for C7: two sensors, a link between them and an
unrelated link, plus one attenuator. -/
def stC7 : Store :=
  ⟨[("a", ⟨"a", ⟨0, 0, 0⟩, 1, 2, true⟩), ("b", ⟨"b", ⟨1, 0, 0⟩, 1, 2, true⟩)],
   [("a-b", ⟨"a-b", "a", "b", 1⟩), ("b-c", ⟨"b-c", "b", "c", 1⟩)],
   [("w", ⟨"w", ⟨0, 1, 0⟩, 1/2, 1⟩)], cfgDefault⟩

/-- Witness for C7: removing sensor `"a"` from the concrete store. -/
theorem C7_removeSensor_cascade_witness :
    (∀ lid lk, alGet (removeSensor stC7 "a").links lid = some lk →
      lk.sensorA ≠ "a" ∧ lk.sensorB ≠ "a") ∧
    (∀ lid lk, alGet stC7.links lid = some lk →
      lk.sensorA = "a" ∨ lk.sensorB = "a" →
      alGet (removeSensor stC7 "a").links lid = none) ∧
    (∀ lid lk, alGet stC7.links lid = some lk →
      lk.sensorA ≠ "a" → lk.sensorB ≠ "a" →
      alGet (removeSensor stC7 "a").links lid = some lk) ∧
    (∀ sid, sid ≠ "a" →
      alGet (removeSensor stC7 "a").sensors sid = alGet stC7.sensors sid) ∧
    (removeSensor stC7 "a").attenuators = stC7.attenuators :=
  C7_removeSensor_cascade stC7 "a" (by simp [stC7])

/-! ### C6: the mutation API performs no validation; the sensor invariant
is maintained only by well-behaved callers. -/

/-- C6 counterexample: `addSensor` with an explicit radius of `-1` stores
the sensor with a non-positive radius instead of rejecting it. -/
theorem C6_counterexample :
    ∃ s, getSensor (addSensor (initStore cfgDefault) "a" ⟨0, 0, 0⟩
      ⟨none, some (-1)⟩) "a" = some s ∧ ¬(0 < s.radius) := by
  refine ⟨_, alGet_alSet_self _ _ _, ?_⟩
  norm_num

/-- Argument validity for the sensor-touching mutations: intensities
passed in `[0,1]` (or omitted), radii positive (or omitted; `0` is
falsy and replaced by the default in `addSensor`). -/
def GoodMutOp : MutOp → Prop
  | .addSensor _ _ opts =>
      (∀ i, opts.intensity = some i → 0 ≤ i ∧ i ≤ 1) ∧
      (∀ r, opts.radius = some r → r = 0 ∨ 0 < r)
  | .updateSensor _ patch =>
      (∀ i, patch.intensity = some i → 0 ≤ i ∧ i ≤ 1) ∧
      (∀ r, patch.radius = some r → 0 < r)
  | _ => True

/-- The data-model sensor invariant. -/
def SensorInvariant (st : Store) : Prop :=
  ∀ kv ∈ st.sensors,
    0 < kv.2.radius ∧ 0 ≤ kv.2.intensity ∧ kv.2.intensity ≤ 1

theorem mem_alSet {α : Type} (m : List (String × α)) (k : String) (v : α)
    (kv : String × α) (h : kv ∈ alSet m k v) : kv = (k, v) ∨ kv ∈ m := by
  induction m with
  | nil =>
      unfold alSet at h
      rcases List.mem_singleton.mp h with h'
      exact Or.inl h'
  | cons kv' rest ih =>
      obtain ⟨k', v'⟩ := kv'
      unfold alSet at h
      by_cases hk : k' = k
      · rw [if_pos hk] at h
        rcases List.mem_cons.mp h with h' | h'
        · exact Or.inl h'
        · exact Or.inr (List.mem_cons_of_mem _ h')
      · rw [if_neg hk] at h
        rcases List.mem_cons.mp h with h' | h'
        · exact Or.inr (h' ▸ List.mem_cons_self _ _)
        · rcases ih h' with h'' | h''
          · exact Or.inl h''
          · exact Or.inr (List.mem_cons_of_mem _ h'')

theorem applyOp_config (st : Store) (op : MutOp) :
    (applyOp st op).config = st.config := by
  cases op with
  | addSensor id pos opts => rfl
  | removeSensor id => rfl
  | updateSensor id patch =>
      show (updateSensor st id patch).config = st.config
      unfold updateSensor
      cases alGet st.sensors id with
      | none => rfl
      | some s => rfl
  | addLink a b w => rfl
  | removeLink id => rfl
  | clearLinks => rfl
  | addAttenuator id pos f r => rfl
  | removeAttenuator id => rfl
  | updateAttenuator id patch =>
      show (updateAttenuator st id patch).config = st.config
      unfold updateAttenuator
      cases alGet st.attenuators id with
      | none => rfl
      | some a => rfl

theorem applyOp_sensorInvariant (st : Store) (op : MutOp)
    (hdr : 0 < st.config.defaultRadius) (hop : GoodMutOp op)
    (hinv : SensorInvariant st) : SensorInvariant (applyOp st op) := by
  cases op with
  | addSensor id pos opts =>
      intro kv hkv
      rcases mem_alSet st.sensors id _ kv hkv with h | h
      · subst h
        dsimp only
        refine ⟨?_, ?_⟩
        · rcases hr : opts.radius with _ | r
          · exact hdr
          · rcases hop.2 r hr with h0 | hpos
            · subst h0
              have hgoal : (0:ℝ) <
                  if (0:ℝ) = 0 then st.config.defaultRadius else 0 := by
                rw [if_pos rfl]; exact hdr
              exact hgoal
            · have hgoal : (0:ℝ) <
                  if r = 0 then st.config.defaultRadius else r := by
                rw [if_neg (ne_of_gt hpos)]; exact hpos
              exact hgoal
        · rcases hi : opts.intensity with _ | i
          · exact ⟨zero_le_one, le_refl 1⟩
          · exact hop.1 i hi
      · exact hinv kv h
  | removeSensor id =>
      intro kv hkv
      exact hinv kv (List.mem_filter.mp hkv).1
  | updateSensor id patch =>
      show SensorInvariant (updateSensor st id patch)
      unfold updateSensor
      rcases hget : alGet st.sensors id with _ | s
      · exact hinv
      · intro kv hkv
        rcases mem_alSet st.sensors id _ kv hkv with h | h
        · subst h
          dsimp only [applySensorPatch]
          have hs := hinv (id, s) (alGet_mem st.sensors id s hget)
          refine ⟨?_, ?_⟩
          · rcases hr : patch.radius with _ | r
            · exact hs.1
            · exact hop.2 r hr
          · rcases hi : patch.intensity with _ | i
            · exact hs.2
            · exact hop.1 i hi
        · exact hinv kv h
  | addLink a b w => exact hinv
  | removeLink id => exact hinv
  | clearLinks => exact hinv
  | addAttenuator id pos f r => exact hinv
  | removeAttenuator id => exact hinv
  | updateAttenuator id patch =>
      show SensorInvariant (updateAttenuator st id patch)
      unfold updateAttenuator
      rcases alGet st.attenuators id with _ | a
      · exact hinv
      · exact hinv

/-- C6 (amended): the mutation API performs no validation — a non-positive
radius is stored rather than rejected — but the invariant
`radius > 0 ∧ intensity ∈ [0,1]` does hold after every sequence of
mutations whose sensor-touching arguments respect it (intensities in
`[0,1]` or omitted, radii positive, zero, or omitted in `addSensor` and
positive or omitted in `updateSensor` patches), provided the configured
`defaultRadius` is positive. -/
theorem C6_sensor_invariant_wellBehaved (cfg : Config)
    (hdr : 0 < cfg.defaultRadius) (ops : List MutOp)
    (hops : ∀ op ∈ ops, GoodMutOp op) :
    SensorInvariant (applyOps (initStore cfg) ops) := by
  have hmain := foldl_invariant
    (fun st => SensorInvariant st ∧ st.config = cfg) applyOp ops
    (initStore cfg) ⟨fun kv hkv => absurd hkv (List.not_mem_nil kv), rfl⟩
    (fun st op hst hop =>
      ⟨applyOp_sensorInvariant st op (by rw [hst.2]; exact hdr)
        (hops op hop) hst.1,
       (applyOp_config st op).trans hst.2⟩)
  exact hmain.1

/-- Witness for the amended C6: a well-behaved add followed by a
well-behaved patch. -/
theorem C6_sensor_invariant_wellBehaved_witness :
    SensorInvariant (applyOps (initStore cfgDefault)
      [.addSensor "a" ⟨0, 0, 0⟩ ⟨some (1/2), some 3⟩,
       .updateSensor "a" ⟨none, some 1, some 2, none⟩]) := by
  refine C6_sensor_invariant_wellBehaved cfgDefault (by norm_num [cfgDefault])
    _ ?_
  intro op hop
  rcases List.mem_cons.mp hop with h | h
  · subst h
    refine ⟨?_, ?_⟩
    · intro i hi
      injection hi with hi
      subst hi
      norm_num
    · intro r hr
      injection hr with hr
      subst hr
      norm_num
  · rcases List.mem_singleton.mp h with h'
    subst h'
    refine ⟨?_, ?_⟩
    · intro i hi
      injection hi with hi
      subst hi
      norm_num
    · intro r hr
      injection hr with hr
      subst hr
      norm_num

/-! ### C5: range of the rasterized grid -/

theorem linkFold_bounds (sensor : Sensor) (point : Vec3)
    (ctx : HeatmapContext) (hsen : 0 ≤ sensor.intensity ∧ sensor.intensity ≤ 1)
    (hrad : 0 < sensor.radius)
    (hall : ∀ t ∈ ctx.sensors, (0 ≤ t.intensity ∧ t.intensity ≤ 1) ∧
      0 < t.radius)
    (hw : ∀ lk ∈ ctx.links, 0 ≤ lk.weight ∧ lk.weight ≤ 1) :
    0 ≤ ctx.links.foldl (signalLinkStep sensor point ctx) 0 ∧
      ctx.links.foldl (signalLinkStep sensor point ctx) 0 ≤ 1 := by
  refine foldl_invariant (fun x => 0 ≤ x ∧ x ≤ 1) _ ctx.links 0
    ⟨le_refl 0, zero_le_one⟩ ?_
  intro li lk hli hlk
  simp only [signalLinkStep]
  by_cases hc1 : lk.sensorA = sensor.id ∨ lk.sensorB = sensor.id
  · rw [if_pos hc1]
    rcases hfind : ctx.sensors.find? (fun s => s.id ==
        if lk.sensorA = sensor.id then lk.sensorB else lk.sensorA)
      with _ | other
    · rw [hfind]
      exact hli
    · rw [hfind]
      dsimp only
      by_cases hen : other.enabled = true ∧ other.intensity > 0
      · rw [if_pos hen]
        by_cases hdist : pointToSegmentDistance point sensor.position
            other.position < max sensor.radius other.radius * 0.5
        · rw [if_pos hdist]
          have hother := hall other (List.mem_of_find?_eq_some hfind)
          have hmlr : (0:ℝ) < max sensor.radius other.radius * 0.5 := by
            have hmax : (0:ℝ) < max sensor.radius other.radius :=
              lt_of_lt_of_le hrad (le_max_left _ _)
            nlinarith
          have hdfs := pointToSegmentDistance_nonneg point sensor.position
            other.position
          have hlf0 : (0:ℝ) ≤ max 0 (1 - pointToSegmentDistance point
              sensor.position other.position /
              (max sensor.radius other.radius * 0.5)) := le_max_left 0 _
          have hlf1 : max 0 (1 - pointToSegmentDistance point sensor.position
              other.position / (max sensor.radius other.radius * 0.5)) ≤ 1 := by
            apply max_le zero_le_one
            have := div_nonneg hdfs hmlr.le
            linarith
          have havg0 : (0:ℝ) ≤ (sensor.intensity + other.intensity) * 0.5 := by
            nlinarith [hsen.1, hother.1.1]
          have havg1 : (sensor.intensity + other.intensity) * 0.5 ≤ 1 := by
            nlinarith [hsen.2, hother.1.2]
          have hwlk := hw lk hlk
          constructor
          · exact le_trans hli.1 (le_max_left _ _)
          · apply max_le hli.2
            have hfa : max 0 (1 - pointToSegmentDistance point sensor.position
                other.position / (max sensor.radius other.radius * 0.5)) *
                ((sensor.intensity + other.intensity) * 0.5) ≤ 1 := by
              calc _ ≤ (1:ℝ) * 1 := mul_le_mul hlf1 havg1 havg0 zero_le_one
                _ = 1 := one_mul 1
            have hfa0 : (0:ℝ) ≤ max 0 (1 - pointToSegmentDistance point
                sensor.position other.position /
                (max sensor.radius other.radius * 0.5)) *
                ((sensor.intensity + other.intensity) * 0.5) :=
              mul_nonneg hlf0 havg0
            calc _ ≤ (1:ℝ) * 1 := mul_le_mul hfa hwlk.2 hwlk.1 zero_le_one
              _ = 1 := one_mul 1
        · rw [if_neg hdist]
          exact hli
      · rw [if_neg hen]
        exact hli
  · rw [if_neg hc1]
    exact hli

theorem attFold_bounds (point : Vec3) (atts : List AttenuationPoint)
    (hf : ∀ a ∈ atts, 0 ≤ a.factor ∧ a.factor ≤ 1) (init : ℝ)
    (h0 : 0 ≤ init) (h1 : init ≤ 1) :
    0 ≤ atts.foldl (signalAttStep point) init ∧
      atts.foldl (signalAttStep point) init ≤ 1 := by
  refine foldl_invariant (fun x => 0 ≤ x ∧ x ≤ 1) _ atts init ⟨h0, h1⟩ ?_
  intro infl att hinfl hatt
  simp only [signalAttStep]
  by_cases hda : dist3 att.position point < att.radius
  · rw [if_pos hda]
    have hd0 : 0 ≤ dist3 att.position point := dist3_nonneg _ _
    have hradpos : 0 < att.radius := lt_of_le_of_lt hd0 hda
    have hratio1 : dist3 att.position point / att.radius < 1 :=
      (div_lt_one hradpos).mpr hda
    have hratio0 : 0 ≤ dist3 att.position point / att.radius :=
      div_nonneg hd0 hradpos.le
    have hfa := hf att hatt
    have hprod0 : 0 ≤ (1 - att.factor) *
        (1 - dist3 att.position point / att.radius) :=
      mul_nonneg (by linarith [hfa.2]) (by linarith)
    have hprod1 : (1 - att.factor) *
        (1 - dist3 att.position point / att.radius) ≤ 1 := by
      calc _ ≤ (1:ℝ) * 1 :=
            mul_le_mul (by linarith [hfa.1]) (by linarith)
              (by linarith) zero_le_one
        _ = 1 := one_mul 1
    constructor
    · exact mul_nonneg hinfl.1 (by linarith)
    · calc _ ≤ (1:ℝ) * 1 :=
            mul_le_mul hinfl.2 (by linarith) (by linarith) zero_le_one
        _ = 1 := one_mul 1
  · rw [if_neg hda]
    exact hinfl

/-- `SignalStrategy.computeInfluence` stays in `[0,1]` whenever all stored
values respect the data-model ranges (intensities and attenuator factors
in `[0,1]`, link weights in `[0,1]`, radii positive). -/
theorem signalInfluence_bounds (sensor : Sensor) (point : Vec3)
    (ctx : HeatmapContext)
    (hsen : 0 ≤ sensor.intensity ∧ sensor.intensity ≤ 1)
    (hrad : 0 < sensor.radius)
    (hall : ∀ t ∈ ctx.sensors, (0 ≤ t.intensity ∧ t.intensity ≤ 1) ∧
      0 < t.radius)
    (hw : ∀ lk ∈ ctx.links, 0 ≤ lk.weight ∧ lk.weight ≤ 1)
    (hf : ∀ a ∈ ctx.attenuators, 0 ≤ a.factor ∧ a.factor ≤ 1) :
    0 ≤ signalComputeInfluence sensor point ctx ∧
      signalComputeInfluence sensor point ctx ≤ 1 := by
  by_cases h0 : sensor.enabled = false ∨ sensor.intensity = 0
  · unfold signalComputeInfluence
    rw [if_pos h0]
    exact ⟨le_refl 0, zero_le_one⟩
  · have hrw : signalComputeInfluence sensor point ctx =
        ctx.attenuators.foldl (signalAttStep point)
          (if ctx.links.length > 0 then
            max (max 0 (1 - dist3 sensor.position point / sensor.radius) *
              sensor.intensity)
              (ctx.links.foldl (signalLinkStep sensor point ctx) 0)
          else
            max 0 (1 - dist3 sensor.position point / sensor.radius) *
              sensor.intensity) := by
      unfold signalComputeInfluence
      rw [if_neg h0]
    rw [hrw]
    have hd : 0 ≤ dist3 sensor.position point := dist3_nonneg _ _
    have hbase0 : 0 ≤ max 0 (1 - dist3 sensor.position point /
        sensor.radius) * sensor.intensity :=
      mul_nonneg (le_max_left 0 _) hsen.1
    have hbase1 : max 0 (1 - dist3 sensor.position point / sensor.radius) *
        sensor.intensity ≤ 1 := by
      have hfac : max 0 (1 - dist3 sensor.position point / sensor.radius) ≤
          1 := by
        apply max_le zero_le_one
        have := div_nonneg hd hrad.le
        linarith
      calc _ ≤ (1:ℝ) * 1 := mul_le_mul hfac hsen.2 hsen.1 zero_le_one
        _ = 1 := one_mul 1
    have hlink := linkFold_bounds sensor point ctx hsen hrad hall hw
    by_cases hl : ctx.links.length > 0
    · rw [if_pos hl]
      exact attFold_bounds point ctx.attenuators hf _
        (le_trans hbase0 (le_max_left _ _)) (max_le hbase1 hlink.2)
    · rw [if_neg hl]
      exact attFold_bounds point ctx.attenuators hf _ hbase0 hbase1

/-- Without any id-uniqueness assumption, every value the battery solver
ever stores in its cache lies in `[0,1]` when all raw intensities do. -/
theorem batteryCache_values01 (ctx : HeatmapContext)
    (hall : ∀ t ∈ ctx.sensors, 0 ≤ t.intensity ∧ t.intensity ≤ 1) :
    ∀ k v, (batteryUpdate ctx).1 k = some v → 0 ≤ v ∧ v ≤ 1 := by
  have hseed : ∀ k v, (ctx.sensors.foldl
      (fun m s => fset m s.id (if s.enabled = true then s.intensity else 0))
      (fun _ => none)) k = some v → 0 ≤ v ∧ v ≤ 1 := by
    refine foldl_fset_values _ (fun v => 0 ≤ v ∧ v ≤ 1) ctx.sensors _
      ?_ ?_
    · intro k v h
      cases h
    · intro s hs
      by_cases he : s.enabled = true
      · rw [if_pos he]
        exact hall s hs
      · rw [if_neg he]
        exact ⟨le_refl 0, zero_le_one⟩
  have hstep : ∀ cur, (∀ k v, cur k = some v → 0 ≤ v ∧ v ≤ 1) →
      ∀ k v, mergeVals (batteryIterOnce ctx cur).1 cur k = some v →
        0 ≤ v ∧ v ≤ 1 := by
    intro cur hcur k v h
    unfold mergeVals at h
    rcases hnv : (batteryIterOnce ctx cur).1 k with _ | w
    · rw [hnv] at h
      exact hcur k v h
    · rw [hnv] at h
      injection h with h
      subst h
      rw [iterOnce_fst] at hnv
      refine foldl_fset_values (sensorNewVal ctx cur)
        (fun v => 0 ≤ v ∧ v ≤ 1) ctx.sensors _ ?_ ?_ k w hnv
      · intro k' v' h'
        cases h'
      · intro s hs
        by_cases he : s.enabled = true
        · refine sensorNewVal_bounds ctx cur s 0 1 he (hall s hs) ?_
          intro nId t hfind hten
          rcases hc : cur nId with _ | u
          · exact ⟨le_refl 0, zero_le_one⟩
          · exact hcur nId u hc
        · rw [sensorNewVal_disabled ctx cur s
            (Bool.not_eq_true _ ▸ he : s.enabled = false)]
          exact ⟨le_refl 0, zero_le_one⟩
  have hloop : ∀ fuel cur, (∀ k v, cur k = some v → 0 ≤ v ∧ v ≤ 1) →
      ∀ k v, (batteryLoop ctx fuel cur).1 k = some v → 0 ≤ v ∧ v ≤ 1 := by
    intro fuel
    induction fuel with
    | zero => intro cur hcur; exact hcur
    | succ n ih =>
        intro cur hcur
        unfold batteryLoop
        by_cases hexit : (batteryIterOnce ctx cur).2 < 0.001
        · simp only [if_pos hexit]
          exact hstep cur hcur
        · simp only [if_neg hexit]
          exact ih _ (hstep cur hcur)
  unfold batteryUpdate
  by_cases hlinks : ctx.links.length = 0
  · simp only [if_pos hlinks]
    exact hseed
  · simp only [if_neg hlinks]
    exact hloop 5 _ hseed

/-- `BatteryStrategy.computeInfluence` stays in `[0,1]` given a cache with
values in `[0,1]` and a sensor with intensity in `[0,1]`. -/
theorem batteryInfluence_bounds (cache : String → Option ℝ)
    (sensor : Sensor) (point : Vec3)
    (hsen : 0 ≤ sensor.intensity ∧ sensor.intensity ≤ 1)
    (hrad : 0 < sensor.radius)
    (hcache : ∀ k v, cache k = some v → 0 ≤ v ∧ v ≤ 1) :
    0 ≤ batteryComputeInfluence cache sensor point ∧
      batteryComputeInfluence cache sensor point ≤ 1 := by
  unfold batteryComputeInfluence
  by_cases he : sensor.enabled = false
  · rw [if_pos he]
    exact ⟨le_refl 0, zero_le_one⟩
  · rw [if_neg he]
    dsimp only
    by_cases hd : dist3 sensor.position point > sensor.radius
    · rw [if_pos hd]
      exact ⟨le_refl 0, zero_le_one⟩
    · rw [if_neg hd]
      push_neg at hd
      have hd0 : 0 ≤ dist3 sensor.position point := dist3_nonneg _ _
      have hratio0 : 0 ≤ dist3 sensor.position point / sensor.radius :=
        div_nonneg hd0 hrad.le
      have hratio1 : dist3 sensor.position point / sensor.radius ≤ 1 :=
        (div_le_one hrad).mpr hd
      have hsq1 : (dist3 sensor.position point / sensor.radius) ^ 2 ≤ 1 := by
        nlinarith
      have hsq0 : 0 ≤ (dist3 sensor.position point / sensor.radius) ^ 2 :=
        sq_nonneg _
      have heff : 0 ≤ (cache sensor.id).getD sensor.intensity ∧
          (cache sensor.id).getD sensor.intensity ≤ 1 := by
        rcases hc : cache sensor.id with _ | w
        · exact hsen
        · exact hcache sensor.id w hc
      constructor
      · exact mul_nonneg heff.1 (by linarith)
      · calc _ ≤ (1:ℝ) * 1 :=
              mul_le_mul heff.2 (by linarith) (by linarith) zero_le_one
          _ = 1 := one_mul 1

/-- A cell value is in `[0,1]` whenever the strategy's influence is in
`[0,1]` on every enabled sensor. -/
theorem cellValue_bounds (strat : Strategy) (cfg : Config)
    (ctx : HeatmapContext) (point : Vec3)
    (hinf : ∀ s ∈ ctx.sensors, s.enabled = true →
      0 ≤ strat.computeInfluence s point ctx ∧
        strat.computeInfluence s point ctx ≤ 1) :
    0 ≤ cellValue strat cfg ctx point ∧
      cellValue strat cfg ctx point ≤ 1 := by
  have hcomb : ∀ mode,
      ((ctx.sensors.filter (fun s => s.enabled)).map
        (fun s => strat.computeInfluence s point ctx)).filter
        (fun influence => decide (influence > 0)) ≠ [] →
      0 ≤ combineInfluences
        (((ctx.sensors.filter (fun s => s.enabled)).map
          (fun s => strat.computeInfluence s point ctx)).filter
          (fun influence => decide (influence > 0))) mode ∧
      combineInfluences
        (((ctx.sensors.filter (fun s => s.enabled)).map
          (fun s => strat.computeInfluence s point ctx)).filter
          (fun influence => decide (influence > 0))) mode ≤ 1 := by
    intro mode hne
    apply combine_bounds_aux _ hne ?_ mode
    intro v hv
    have hv1 := List.mem_filter.mp hv
    obtain ⟨s, hs, hsv⟩ := List.mem_map.mp hv1.1
    have hsf := List.mem_filter.mp hs
    exact hsv ▸ hinf s hsf.1 hsf.2
  unfold cellValue
  dsimp only
  split_ifs <;>
    first
      | exact ⟨le_refl 0, zero_le_one⟩
      | exact hcomb cfg.combineMode (List.length_pos.mp (by assumption))

/-- C5 (amended): for every bounding region, resolution, and entity store
whose stored values respect the data-model ranges (sensor intensity in
`[0,1]` and radius positive, link weight in `[0,1]`, attenuator factor in
`[0,1]`), every cell of the grid returned by `computeHeatmap` lies in
`[0,1]` under both strategies. -/
theorem C5_grid_bounds_bounded_store (st : Store) (bounds : Bounds)
    (hsen : ∀ kv ∈ st.sensors,
      (0 ≤ kv.2.intensity ∧ kv.2.intensity ≤ 1) ∧ 0 < kv.2.radius)
    (hw : ∀ kv ∈ st.links, 0 ≤ kv.2.weight ∧ kv.2.weight ≤ 1)
    (hf : ∀ kv ∈ st.attenuators, 0 ≤ kv.2.factor ∧ kv.2.factor ≤ 1) :
    (∀ row ∈ controllerComputeSignal st bounds, ∀ c ∈ row,
      0 ≤ c ∧ c ≤ 1) ∧
    (∀ row ∈ controllerComputeBattery st bounds, ∀ c ∈ row,
      0 ≤ c ∧ c ≤ 1) := by
  have hall : ∀ t ∈ (toContext st).sensors,
      (0 ≤ t.intensity ∧ t.intensity ≤ 1) ∧ 0 < t.radius := by
    intro t ht
    obtain ⟨kv, hkv, hkvt⟩ := List.mem_map.mp ht
    exact hkvt ▸ hsen kv hkv
  have hwctx : ∀ lk ∈ (toContext st).links, 0 ≤ lk.weight ∧ lk.weight ≤ 1 := by
    intro lk hlk
    obtain ⟨kv, hkv, hkvl⟩ := List.mem_map.mp hlk
    exact hkvl ▸ hw kv hkv
  have hfctx : ∀ a ∈ (toContext st).attenuators,
      0 ≤ a.factor ∧ a.factor ≤ 1 := by
    intro a ha
    obtain ⟨kv, hkv, hkva⟩ := List.mem_map.mp ha
    exact hkva ▸ hf kv hkv
  constructor
  · intro row hrow c hc
    simp only [controllerComputeSignal, computeHeatmap] at hrow
    obtain ⟨y, _, hy⟩ := List.mem_map.mp hrow
    subst hy
    obtain ⟨x, _, hx⟩ := List.mem_map.mp hc
    subst hx
    refine cellValue_bounds _ _ _ _ ?_
    intro s hs _
    exact signalInfluence_bounds s _ (toContext st) (hall s hs).1
      (hall s hs).2 hall hwctx hfctx
  · intro row hrow c hc
    simp only [controllerComputeBattery, computeHeatmap] at hrow
    obtain ⟨y, _, hy⟩ := List.mem_map.mp hrow
    subst hy
    obtain ⟨x, _, hx⟩ := List.mem_map.mp hc
    subst hx
    refine cellValue_bounds _ _ _ _ ?_
    intro s hs _
    exact batteryInfluence_bounds (batteryUpdate (toContext st)).1 s _
      (hall s hs).1 (hall s hs).2
      (batteryCache_values01 (toContext st) (fun t ht => (hall t ht).1))

/-- Witness for the amended C5: a one-sensor store within range. -/
theorem C5_grid_bounds_bounded_store_witness :
    (∀ row ∈ controllerComputeSignal stC2 ⟨⟨0, 0, 0⟩, ⟨2, 1, 0⟩⟩,
      ∀ c ∈ row, 0 ≤ c ∧ c ≤ 1) ∧
    (∀ row ∈ controllerComputeBattery stC2 ⟨⟨0, 0, 0⟩, ⟨2, 1, 0⟩⟩,
      ∀ c ∈ row, 0 ≤ c ∧ c ≤ 1) := by
  refine C5_grid_bounds_bounded_store stC2 ⟨⟨0, 0, 0⟩, ⟨2, 1, 0⟩⟩ ?_ ?_ ?_
  · intro kv hkv
    simp only [stC2, List.mem_cons] at hkv
    rcases hkv with h | h | h
    · rw [h]; norm_num
    · rw [h]; norm_num
    · cases h
  · intro kv hkv
    simp only [stC2] at hkv
    cases hkv
  · intro kv hkv
    simp only [stC2] at hkv
    cases hkv

/-- Configuration used by the C5 counterexample (resolution 2, otherwise
the constructor defaults). -/
def cfgC5 : Config :=
  ⟨.max, true, 2, true, 2.5⟩

/-- C5 counterexample store: reached from a fresh controller by the single
mutation `addSensor("a", (0,0,0), { intensity: 2, radius: 1 })` — the API
stores the out-of-range intensity unclamped. -/
def stC5 : Store :=
  addSensor (initStore cfgC5) "a" ⟨0, 0, 0⟩ ⟨some 2, some 1⟩

/-- C5 counterexample: on a store reachable through the mutation API, the
grid contains a cell equal to `2`, outside `[0,1]` (the sample point of
cell `(x,y) = (0,1)` coincides with the sensor, whose intensity `2` was
stored unclamped). -/
theorem C5_counterexample :
    ∃ row ∈ controllerComputeSignal stC5 ⟨⟨0, 0, 0⟩, ⟨2, 1, 0⟩⟩,
      ∃ c ∈ row, ¬(0 ≤ c ∧ c ≤ 1) := by
  simp only [controllerComputeSignal, computeHeatmap, stC5, cfgC5,
    initStore, addSensor]
  refine ⟨_, List.mem_map_of_mem _ (show 1 ∈ List.range 2 by decide),
          _, List.mem_map_of_mem _ (show 0 ∈ List.range 2 by decide), ?_⟩
  norm_num [cellValue, heatmapPoint, sortDims3, toContext, alSet,
    signalStrategy, signalComputeInfluence, dist3, combineInfluences,
    listMax, Real.sqrt_zero, max_def, decide_eq_true_eq,
    List.filter_cons, List.filter_nil, List.foldl_cons, List.foldl_nil,
    List.map_cons, List.map_nil]

end
